import Mathlib

/-!
# go-vkit `grpcserver`: the dynamic method-dispatch layer

A shallow embedding of `grpcserver/server.go`.  The Go code is effectful: it reads from and
writes to a `grpc.ServerStream`, calls user methods through `reflect`, and may panic.  The
embedding makes all of this explicit:

* the transport and the user code are oracles (`ServerStream`, `Runtime`) whose calls can
  return a value, return an error, or panic;
* every call into the transport or into user code is appended to a trace of `Event`s, in
  program order, so that "the handler is never invoked" or "no response is sent" are statements
  about the trace;
* a Go function body yields a `Run`: its trace together with either the returned `error`
  or the panic value;
* `defer`/`recover` in `handler` is the function `handler` wrapping `handlerBody`, with the
  deferred function as `recovered`;
* the package `logger` keeps state (the line count and the day of the current log file) and
  reads the clock and the file system, whose answers are an oracle too (`LogEnv`); a logger
  call can panic, so the logger state is passed through every function that logs, and a
  panic of the logger ends the run like any other panic.

An `error` value is represented by the text its `Error()` method returns.
-/

namespace GoVkit.grpcserver

/-! ## Go maps with string keys -/

/-- A Go `map[string]β`.  Only lookups are observable; an assignment shadows earlier ones. -/
abbrev GoMap (β : Type) := List (String × β)

namespace GoMap

/-- The comma-ok lookup `v, ok := m[k]`. -/
def get? {β : Type} : GoMap β → String → Option β
  | [], _ => none
  | (k', v) :: rest, k => if k' = k then some v else get? rest k

/-- The assignment `m[k] = v`. -/
def set {β : Type} (m : GoMap β) (k : String) (v : β) : GoMap β :=
  (k, v) :: m

/-- The builtin `delete(m, k)`. -/
def delete {β : Type} (m : GoMap β) (k : String) : GoMap β :=
  m.filter (fun p => p.1 ≠ k)

end GoMap

/-! ## Data model -/

/-- A `reflect.Type` of a request or response parameter: its name and its method set
(what `MethodByName` can find).  Parameter types are pointer types, so `Elem()` succeeds. -/
structure GoType where
  name : String
  methods : List String
deriving DecidableEq, Repr

/-- A `reflect.Method`: its name and the parameter types of its function, receiver first. -/
structure Method where
  Name : String
  In : List GoType
deriving DecidableEq, Repr

/-- The value of `m.Type.NumIn()`. -/
def Method.NumIn (m : Method) : Nat := m.In.length

/-- The `reflect.Value` of a registered handler object: the name of its type
(`hType.Elem().Name()`) and its public methods (`hType.Method(i)`, `i < NumMethod()`). -/
structure HandlerObject where
  typeName : String
  methods : List Method
deriving DecidableEq, Repr

/-- The struct `handlerInfo` (lines 34-41). -/
structure handlerInfo where
  handler : HandlerObject
  method : Method
  reqType : Option GoType
  respType : GoType
  clientStream : Bool
  serverStream : Bool
deriving DecidableEq, Repr

/-- The struct `grpcServer` (lines 43-48); the embedded `grpc.Server` and the lock are not
modelled. -/
structure grpcServer where
  handlers : GoMap handlerInfo
deriving DecidableEq, Repr

/-- The fields of `grpcx.ApiEndpoint` that `RegisterWithUrl` reads. -/
structure ApiEndpoint where
  Method : String
  Url : String
  ClientStream : Bool
  ServerStream : Bool
deriving DecidableEq, Repr

/-- The constant `DefaultContentType` (line 29). -/
def DefaultContentType : String := "application/grpc"

/-- A message value (a decoded request, a reply, or the bytes of a `json.RawMessage`). -/
abbrev Val := String

/-- The per-call context handed to the handler method: the call metadata, the peer address
and the timeout given to `context.WithTimeout` (a `time.Duration`, in nanoseconds). -/
structure Context where
  md : GoMap String
  peer : Option String
  timeout : Option Int
deriving DecidableEq, Repr

/-- The result of calling into the transport or into user code: a value, a returned `error`
(with its `Error()` text), or a panic (with the `%v` rendering of the panic value). -/
inductive Call (α : Type) where
  | ok (a : α)
  | err (e : String)
  | panic (r : String)
deriving DecidableEq, Repr

/-- The value `out[0].Interface()` returned by a handler method. -/
inductive RetVal where
  /-- The nil interface. -/
  | nil
  /-- A non-nil `*errorsx.Errno` with its `Code` and `Msg`. -/
  | errno (Code : Int) (Msg : String)
  /-- A nil `*errorsx.Errno` stored in the interface (a non-nil interface value). -/
  | errnoNil
  /-- Any other `error`, with its `Error()` text. -/
  | error (text : String)
  /-- A non-nil value that does not implement `error`, with its `%v` rendering. -/
  | nonError (text : String)
deriving DecidableEq, Repr

/-- What `h.method.Func.Call(in)` does: the method returns, leaving `replyv` filled in and
`out0` as its result, or it panics. -/
inductive MethodResult where
  | returns (replyv : Val) (out0 : RetVal)
  | panics (r : String)
deriving DecidableEq, Repr

/-- The `error` values the server returns to the transport.  The package `neterrors` is not
among the sources: its constructors are kept symbolic, each value carrying the arguments it
was built from. -/
inductive Err where
  /-- The value of `neterrors.NotFound(msg)`. -/
  | NotFound (msg : String)
  /-- The value of `neterrors.BadRequest(msg)`. -/
  | BadRequest (msg : String)
  /-- The value of `neterrors.BusinessError(code, msg)`. -/
  | BusinessError (code : Int) (msg : String)
  /-- The error returned by `stream.RecvMsg`, handed on as it is. -/
  | recv (e : String)
  /-- The handler's own return value, handed on as it is. -/
  | handlerErr (v : RetVal)
  /-- The value of `fmt.Errorf` with the formatted text. -/
  | Errorf (text : String)
deriving DecidableEq, Repr

/-- The destination of `stream.RecvMsg`: a fresh request of the given type, or a
`json.RawMessage`. -/
inductive RecvTarget where
  | typed (t : GoType)
  | raw
deriving DecidableEq, Repr

/-- The calls the server makes into the transport and into user code. -/
inductive Event where
  | RecvMsg (into : RecvTarget)
  | Unmarshal (codec : String) (raw : Val)
  | Validate (t : GoType) (argv : Val)
  | SetStream (t : GoType)
  | Call (h : handlerInfo) (ctx : Context) (argv : Option Val)
  | SendMsg (replyv : Val)
deriving DecidableEq, Repr

/-- Is the event an invocation of the handler method? -/
def Event.isCall : Event → Bool
  | .Call _ _ _ => true
  | _ => false

/-- Is the event a `SendMsg` on the stream? -/
def Event.isSend : Event → Bool
  | .SendMsg _ => true
  | _ => false

/-- Is the event an invocation of the request type's `Validate`? -/
def Event.isValidate : Event → Bool
  | .Validate _ _ => true
  | _ => false

/-- Is the event part of receiving and decoding the request (`RecvMsg` or `Unmarshal`)? -/
def Event.isDecode : Event → Bool
  | .RecvMsg _ => true
  | .Unmarshal _ _ => true
  | _ => false

/-- How a Go function ends: it returns its `error` result, or it panics. -/
inductive Outcome where
  | ret (err : Option Err)
  | panic (r : String)
deriving DecidableEq, Repr

/-- One run of a Go function: the calls it made, in order, and how it ended. -/
structure Run where
  trace : List Event
  out : Outcome
deriving DecidableEq, Repr

/-- How a block of statements ends: control falls through to the next statement with a
value, the enclosing function returns, or it panics. -/
inductive Step (α : Type) where
  | next (a : α)
  | ret (err : Option Err)
  | panic (r : String)
deriving DecidableEq, Repr

/-! ## The package `logger` (`logger/logger.go`) -/

/-- The type `Level` with its four constants (lines 13-21). -/
inductive Level where
  | DebugLevel
  | InfoLevel
  | WarnLevel
  | ErrorLevel
deriving DecidableEq, Repr

/-- The constant `FileMaxLine` (line 18). -/
def FileMaxLine : Int := 65536

/-- The answer of `os.Stat(fileDir)`: a nil error, an error with `os.IsNotExist`, or any
other error. -/
inductive StatResult where
  | found
  | notExist
  | failed
deriving DecidableEq, Repr

/-- What one logger call finds outside the program: the day of the year of `time.Now()`,
the answer of `os.Stat`, and the error texts of `os.MkdirAll` and `os.OpenFile` (`none` for
a nil error). -/
structure FileSystem where
  yearDay : Int
  stat : StatResult
  mkdirAll : Option String
  openFile : Option String
deriving DecidableEq, Repr

/-- The clock and file system over time: what the logger call number `n` finds, counting
the lines written so far. -/
abbrev LogEnv := Nat → FileSystem

/-- One line handed to the logger: its level and the message the caller hands over (the
format with the caller's arguments filled in). -/
structure LogLine where
  level : Level
  text : String
deriving DecidableEq, Repr

/-- The package variables of `logger` that a logger call reads or writes (lines 38-52):
`logDir ++ appName`, `lineCount`, `createFileDay`, and the lines written so far. -/
structure Logger where
  fileDir : String
  lineCount : Int
  createFileDay : Int
  written : List LogLine
deriving DecidableEq, Repr

/-- The wrap of an integer to the type `int32`. -/
def int32 (x : Int) : Int := (x + 2 ^ 31) % 2 ^ 32 - 2 ^ 31

/-- The function `tryNewFile` (lines 114-147): the logger after the call and the panic
value, if it panicked.  A new file is due when the line count exceeds `FileMaxLine` or the
day changed; the call panics when the directory is missing and cannot be made, or when the
file cannot be opened, and then leaves `lineCount` and `createFileDay` as they were. -/
def tryNewFile (lg : Logger) (fs : FileSystem) (force : Bool) : Logger × Option String :=
  if lg.lineCount > FileMaxLine ∨ lg.createFileDay ≠ fs.yearDay ∨ force = true then
    match fs.stat, fs.mkdirAll with
    | .notExist, some err =>
      (lg, some ("create forder fail fileDir=:" ++ lg.fileDir ++ " err:" ++ err))
    | _, _ =>
      match fs.openFile with
      | some err => (lg, some ("open log file failed, err:" ++ err))
      | none => ({ lg with lineCount := 0, createFileDay := fs.yearDay }, none)
  else (lg, none)

/-- The function `formatAndWrite` (lines 203-217): the line is written, `lineCount` is
incremented, and `tryNewFile(false)` runs. -/
def formatAndWrite (env : LogEnv) (lg : Logger) (l : Level) (text : String) :
    Logger × Option String :=
  tryNewFile
    { lg with written := lg.written ++ [⟨l, text⟩], lineCount := int32 (lg.lineCount + 1) }
    (env lg.written.length) false

/-- The function `Infof` (lines 227-229), on the message the caller hands over. -/
def Infof (env : LogEnv) (lg : Logger) (text : String) : Logger × Option String :=
  formatAndWrite env lg .InfoLevel text

/-- The function `Errorf` (lines 235-237), on the message the caller hands over. -/
def Errorf (env : LogEnv) (lg : Logger) (text : String) : Logger × Option String :=
  formatAndWrite env lg .ErrorLevel text

/-- The function `Info` (lines 243-245). -/
def Info (env : LogEnv) (lg : Logger) (text : String) : Logger × Option String :=
  Infof env lg text

/-- The function `Error` (lines 251-253). -/
def Error (env : LogEnv) (lg : Logger) (text : String) : Logger × Option String :=
  Errorf env lg text

/-- The panic value of the next logger call from the state `lg`, if it panics; it does not
depend on the level or the message. -/
def logPanics (env : LogEnv) (lg : Logger) : Option String :=
  (formatAndWrite env lg .InfoLevel "").2

/-- One run of a Go function that logs: the logger after the run, the calls it made, in
order, and how it ended. -/
structure LogRun where
  logger : Logger
  trace : List Event
  out : Outcome
deriving DecidableEq, Repr

/-- The end of a block that logs before ending with `s`: the logger's panic if the logger
call panicked, and `s` otherwise. -/
def Step.afterLog {α : Type} (panicked : Option String) (s : Step α) : Step α :=
  match panicked with
  | some r => .panic r
  | none => s

/-- The end of a function that logs before ending with `o`: the logger's panic if the
logger call panicked, and `o` otherwise. -/
def Outcome.afterLog (panicked : Option String) (o : Outcome) : Outcome :=
  match panicked with
  | some r => .panic r
  | none => o

/-- A codec of `codec.DefaultGRPCCodecs`: what `Name()` returns and what `Unmarshal` does
with a raw message and a target type. -/
structure Codec where
  Name : String
  Unmarshal : Val → GoType → Call Val

/-- The inbound `grpc.ServerStream` of one call: the call identity
(`grpc.MethodFromServerStream`), the incoming metadata (`metadata.FromIncomingContext`), the
peer address (`peer.FromContext`), and the outcome of `RecvMsg` and `SendMsg`. -/
structure ServerStream where
  fullMethod : Option String
  incoming : Option (GoMap (List String))
  peer : Option String
  RecvMsg : RecvTarget → Call Val
  SendMsg : Val → Call Unit

/-- The code the server calls that lives outside `server.go`, and the world around it: the
codec table `codec.DefaultGRPCCodecs`, the helper `ServiceMethod`, the user code reached
through reflection (`Validate` on a request type, `SetStream` on a response type, the
handler method), the text of `(*errorsx.Errno).Error()` for a code and a message, the call
`json.Marshal` (whose error is ignored by the server), the text of `debug.Stack()`, and the
clock and file system the logger finds.  `Validate` answers `ok` for a nil error and
`err text` for a non-nil one; the values `SetStream` returns are ignored by the server. -/
structure Runtime where
  DefaultGRPCCodecs : String → Option Codec
  ServiceMethod : String → Call (String × String)
  Validate : GoType → Val → Call Unit
  SetStream : GoType → Call Unit
  ErrnoError : Int → String → String
  Marshal : Val → Call String
  Stack : String
  fs : LogEnv
  Call : handlerInfo → Context → Option Val → MethodResult

/-- The panic value of a nil dereference or a method call on a nil interface. -/
def nilDereference : String :=
  "runtime error: invalid memory address or nil pointer dereference"

/-- The panic value of a failed type assertion `rerr.(error)`. -/
def interfaceConversion : String :=
  "interface conversion: interface is not error: missing method Error"

/-! ## `strconv.ParseUint(s, 10, 64)` and `time.Duration(n)` -/

/-- The digit loop of `strconv.ParseUint` in base 10 with bit size 64: a byte that is not a
decimal digit is a syntax error, a value above `2^64 - 1` is a range error. -/
def parseUintDigits : List Char → Nat → Option Nat
  | [], n => some n
  | c :: cs, n =>
    if '0' ≤ c ∧ c ≤ '9' then
      let n1 := n * 10 + (c.toNat - 48)
      if n1 < 2 ^ 64 then parseUintDigits cs n1 else none
    else none

/-- The call `strconv.ParseUint(s, 10, 64)`; `none` stands for a non-nil error. -/
def ParseUint (s : String) : Option Nat :=
  if s.data = [] then none else parseUintDigits s.data 0

/-- The conversion `time.Duration(n)` of a `uint64` to the `int64` type `Duration`. -/
def Duration (n : Nat) : Int :=
  if n % 2 ^ 64 < 2 ^ 63 then (n % 2 ^ 64 : Nat) else ((n % 2 ^ 64 : Nat) : Int) - 2 ^ 64

/-! ## The dispatcher: `handler` (lines 74-157) -/

/-- Lines 104-107: the metadata map built from the incoming one, each list of values joined
with a comma and a space. -/
def joinMD (gmd : GoMap (List String)) : GoMap String :=
  gmd.foldl (fun md kv => md.set kv.1 (String.intercalate ", " kv.2)) []

/-- Lines 110-122: the pair `(xct, ct)`. -/
def contentTypes (md : GoMap String) : String × String :=
  let xct :=
    match md.get? "x-content-type" with
    | some ctype => ctype
    | none =>
      match md.get? "content-type" with
      | some ctype => ctype
      | none => DefaultContentType
  let ct :=
    match md.get? "content-type" with
    | some ctype => ctype
    | none => xct
  (xct, ct)

/-- Lines 136-143: the timeout installed on the context, if any, from the value `to` of the
`timeout` entry. -/
def timeoutOf (tout : String) : Option Int :=
  if tout.length > 0 then
    match ParseUint tout with
    | some n => some (Duration n)
    | none => none
  else none

/-- Lines 99-143: the values `ct`, `xct` and `ctx` that `handler` computes from the stream
before the registry lookup.  The metadata map is shared with the context, so the `Remote`
entry written after `meta.NewContext` is visible through `ctx`. -/
def callContext (stream : ServerStream) : String × String × Context :=
  let gmd := match stream.incoming with
    | some gmd => gmd
    | none => []
  let md := joinMD gmd
  let tout := (md.get? "timeout").getD ""
  let xct := (contentTypes md).1
  let ct := (contentTypes md).2
  let md := md.set "x-content-type" xct
  let md := md.set "content-type" ct
  let md := md.delete "timeout"
  let md := match stream.peer with
    | some addr => md.set "Remote" addr
    | none => md
  (ct, xct, { md := md, peer := stream.peer, timeout := timeoutOf tout })

/-! ## The stream invoker: `processStream` (lines 159-200) -/

/-- Lines 166-169: call `SetStream` on the reply if its type has that method; the values it
returns are ignored. -/
def bindStream (rt : Runtime) (respType : GoType) : List Event × Step Unit :=
  if "SetStream" ∈ respType.methods then
    match rt.SetStream respType with
    | .panic r => ([.SetStream respType], .panic r)
    | _ => ([.SetStream respType], .next ())
  else ([], .next ())

/-- Lines 191-199: the interpretation of the handler's return value on the stream path. -/
def streamResult (out0 : RetVal) : Option Err :=
  match out0 with
  | .nil => none
  | .nonError text => some (.Errorf ("stream error " ++ text))
  | verr => some (.handlerErr verr)

/-- The function `processStream`. -/
def processStream (rt : Runtime) (stream : ServerStream) (h : handlerInfo)
    (_ct _xct _methodName : String) (ctx : Context) : Run :=
  match bindStream rt h.respType with
  | (tr0, .panic r) => ⟨tr0, .panic r⟩
  | (tr0, .ret e) => ⟨tr0, .ret e⟩
  | (tr0, .next ()) =>
    match h.reqType with
    | some reqType =>
      match stream.RecvMsg (.typed reqType) with
      | .err e => ⟨tr0 ++ [.RecvMsg (.typed reqType)], .ret (some (.recv e))⟩
      | .panic r => ⟨tr0 ++ [.RecvMsg (.typed reqType)], .panic r⟩
      | .ok argv =>
        let tr := tr0 ++ [.RecvMsg (.typed reqType), .Call h ctx (some argv)]
        match rt.Call h ctx (some argv) with
        | .panics r => ⟨tr, .panic r⟩
        | .returns _ out0 => ⟨tr, .ret (streamResult out0)⟩
    | none =>
      let tr := tr0 ++ [.Call h ctx none]
      match rt.Call h ctx none with
      | .panics r => ⟨tr, .panic r⟩
      | .returns _ out0 => ⟨tr, .ret (streamResult out0)⟩

/-! ## The unary invoker: `processRequest` (lines 202-274) -/

/-- Lines 206-225: receive and decode the request.  The codec is looked up under `xct`; a
content type missing from the table yields a nil codec, and `cd.Name()` panics.  Every
failure is logged before the bad-request error is returned. -/
def decodeRequest (rt : Runtime) (lg : Logger) (stream : ServerStream) (reqType : GoType)
    (xct : String) : Logger × List Event × Step Val :=
  match rt.DefaultGRPCCodecs xct with
  | none => (lg, [], .panic nilDereference)
  | some cd =>
    if cd.Name ≠ "json" then
      match stream.RecvMsg (.typed reqType) with
      | .err e =>
        let errorStr := "[grpcserver] RecvMsg error: " ++ e
        let logged := Errorf rt.fs lg errorStr
        (logged.1, [.RecvMsg (.typed reqType)],
          Step.afterLog logged.2 (.ret (some (.BadRequest errorStr))))
      | .panic r => (lg, [.RecvMsg (.typed reqType)], .panic r)
      | .ok argv => (lg, [.RecvMsg (.typed reqType)], .next argv)
    else
      match stream.RecvMsg .raw with
      | .err e =>
        let errorStr := "[grpcserver] RecvMsg error: " ++ e
        let logged := Errorf rt.fs lg errorStr
        (logged.1, [.RecvMsg .raw], Step.afterLog logged.2 (.ret (some (.BadRequest errorStr))))
      | .panic r => (lg, [.RecvMsg .raw], .panic r)
      | .ok raw =>
        match cd.Unmarshal raw reqType with
        | .err e =>
          let errorStr := "[grpcserver] Unmarshal error: " ++ e
          let logged := Errorf rt.fs lg errorStr
          (logged.1, [.RecvMsg .raw, .Unmarshal cd.Name raw],
            Step.afterLog logged.2 (.ret (some (.BadRequest errorStr))))
        | .panic r => (lg, [.RecvMsg .raw, .Unmarshal cd.Name raw], .panic r)
        | .ok argv => (lg, [.RecvMsg .raw, .Unmarshal cd.Name raw], .next argv)

/-- Lines 227-238: call `Validate` on the request if its type has that method; a non-nil
result is logged and returned as the business error with code -1. -/
def validateRequest (rt : Runtime) (lg : Logger) (reqType : GoType) (argv : Val) :
    Logger × List Event × Step Unit :=
  if "Validate" ∈ reqType.methods then
    match rt.Validate reqType argv with
    | .panic r => (lg, [.Validate reqType argv], .panic r)
    | .err text =>
      let errorStr := "[grpcserver]  param error: " ++ text
      let logged := Errorf rt.fs lg errorStr
      (logged.1, [.Validate reqType argv],
        Step.afterLog logged.2 (.ret (some (.BusinessError (-1) errorStr))))
    | .ok () => (lg, [.Validate reqType argv], .next ())
  else (lg, [], .next ())

/-- Lines 246-260: the interpretation of the handler's return value on the unary path; an
error is logged before it is returned. -/
def interpretResult (rt : Runtime) (lg : Logger) (out0 : RetVal) : Logger × Step Unit :=
  match out0 with
  | .nil => (lg, .next ())
  | .errno Code Msg =>
    if Code ≠ 0 then
      let errorStr := "[grpcserver] call error: " ++ rt.ErrnoError Code Msg
      let logged := Errorf rt.fs lg errorStr
      (logged.1, Step.afterLog logged.2 (.ret (some (.BusinessError Code Msg))))
    else (lg, .next ())
  | .errnoNil => (lg, .panic nilDereference)
  | .error text =>
    let errorStr := "[grpcserver] call error: " ++ text
    let logged := Errorf rt.fs lg errorStr
    (logged.1, Step.afterLog logged.2 (.ret (some (.BusinessError (-2) errorStr))))
  | .nonError _ => (lg, .panic interfaceConversion)

/-- The bytes `json.Marshal` leaves when its error is ignored: the encoding, or nothing. -/
def marshalBytes (c : Call String) : String :=
  match c with
  | .ok s => s
  | _ => ""

/-- Line 270: the text of the success log. -/
def successStr (methodName jsonArgv jsonReplyv : String) : String :=
  "[grpcserver] handler success  methodName:" ++ methodName ++ " argv:" ++ jsonArgv ++
    " replyv:" ++ jsonReplyv

/-- Lines 268-273: marshal the request and the reply, log the success and return nil. -/
def logSuccess (rt : Runtime) (lg : Logger) (methodName : String) (argv replyv : Val) :
    Logger × Outcome :=
  match rt.Marshal argv with
  | .panic r => (lg, .panic r)
  | jsonArgv =>
    match rt.Marshal replyv with
    | .panic r => (lg, .panic r)
    | jsonReplyv =>
      let logged :=
        Info rt.fs lg (successStr methodName (marshalBytes jsonArgv) (marshalBytes jsonReplyv))
      (logged.1, Outcome.afterLog logged.2 (.ret none))

/-- Lines 262-273: send the reply; a failed send is logged and returned as the business
error with code -2, a successful one is followed by the success log. -/
def sendReply (rt : Runtime) (lg : Logger) (stream : ServerStream) (methodName : String)
    (argv replyv : Val) : Logger × List Event × Outcome :=
  match stream.SendMsg replyv with
  | .err e =>
    let errorStr := "[grpcserver] send error: " ++ e
    let logged := Errorf rt.fs lg errorStr
    (logged.1, [.SendMsg replyv],
      Outcome.afterLog logged.2 (.ret (some (.BusinessError (-2) errorStr))))
  | .panic r => (lg, [.SendMsg replyv], .panic r)
  | .ok () =>
    ((logSuccess rt lg methodName argv replyv).1, [.SendMsg replyv],
      (logSuccess rt lg methodName argv replyv).2)

/-- The function `processRequest`.  Line 203 calls `Elem` on `h.reqType`, which panics when
the descriptor has no request type. -/
def processRequest (rt : Runtime) (lg : Logger) (stream : ServerStream) (h : handlerInfo)
    (_ct xct methodName : String) (ctx : Context) : LogRun :=
  match h.reqType with
  | none => ⟨lg, [], .panic nilDereference⟩
  | some reqType =>
    match decodeRequest rt lg stream reqType xct with
    | (lg1, tr1, .ret e) => ⟨lg1, tr1, .ret e⟩
    | (lg1, tr1, .panic r) => ⟨lg1, tr1, .panic r⟩
    | (lg1, tr1, .next argv) =>
      match validateRequest rt lg1 reqType argv with
      | (lg2, tr2, .ret e) => ⟨lg2, tr1 ++ tr2, .ret e⟩
      | (lg2, tr2, .panic r) => ⟨lg2, tr1 ++ tr2, .panic r⟩
      | (lg2, tr2, .next ()) =>
        let tr3 := tr1 ++ tr2 ++ [.Call h ctx (some argv)]
        match rt.Call h ctx (some argv) with
        | .panics r => ⟨lg2, tr3, .panic r⟩
        | .returns replyv out0 =>
          match interpretResult rt lg2 out0 with
          | (lg3, .ret e) => ⟨lg3, tr3, .ret e⟩
          | (lg3, .panic r) => ⟨lg3, tr3, .panic r⟩
          | (lg3, .next ()) =>
            ⟨(sendReply rt lg3 stream methodName argv replyv).1,
              tr3 ++ (sendReply rt lg3 stream methodName argv replyv).2.1,
              (sendReply rt lg3 stream methodName argv replyv).2.2⟩

/-! ## `handler` -/

/-- A logger call with the text `errorStr`, followed by `return e`. -/
def logReturn (rt : Runtime) (lg : Logger) (errorStr : String) (e : Option Err) : LogRun :=
  ⟨(Errorf rt.fs lg errorStr).1, [], Outcome.afterLog (Errorf rt.fs lg errorStr).2 (.ret e)⟩

/-- Lines 84-156: the body of `handler`, before the deferred `recover`.  Each not-found
error is logged before it is returned; `processStream` does not log. -/
def handlerBody (g : grpcServer) (rt : Runtime) (lg : Logger) (stream : ServerStream) :
    LogRun :=
  match stream.fullMethod with
  | none =>
    logReturn rt lg "[grpcserver] method does not exist in context"
      (some (.NotFound "[grpcserver] method does not exist in context"))
  | some fullMethod =>
    match rt.ServiceMethod fullMethod with
    | .err e =>
      logReturn rt lg ("[grpcserver] ServiceMethod err:" ++ e)
        (some (.NotFound ("[grpcserver] ServiceMethod err:" ++ e)))
    | .panic r => ⟨lg, [], .panic r⟩
    | .ok (serviceName, methodName) =>
      let methodName := serviceName ++ "." ++ methodName
      let ct := (callContext stream).1
      let xct := (callContext stream).2.1
      let ctx := (callContext stream).2.2
      match g.handlers.get? methodName with
      | none =>
        logReturn rt lg ("[grpcserver] unknown method " ++ methodName)
          (some (.NotFound ("[grpcserver] unknown method " ++ methodName)))
      | some h =>
        if h.clientStream || h.serverStream then
          ⟨lg, (processStream rt stream h ct xct methodName ctx).trace,
            (processStream rt stream h ct xct methodName ctx).out⟩
        else
          processRequest rt lg stream h ct xct methodName ctx

/-- Line 77: the text built from a recovered panic value. -/
def panicMessage (r : String) : String :=
  "[grpcserver] panic recovered:" ++ r ++ " "

/-- The result of `handler`: the server state and the logger after the call, the calls
made, and how the call ended: with the returned `error`, or with a panic that left
`handler`. -/
structure Dispatch where
  server : grpcServer
  logger : Logger
  trace : List Event
  out : Outcome
deriving DecidableEq, Repr

/-- Lines 75-82: the deferred function on a panic with value `r`.  It logs the message and
the stack and then sets the result to a bad-request error; a panic of one of the two logger
calls is not recovered and leaves `handler`. -/
def recovered (g : grpcServer) (rt : Runtime) (lg : Logger) (tr : List Event) (r : String) :
    Dispatch :=
  match (Errorf rt.fs lg (panicMessage r)).2 with
  | some r1 => ⟨g, (Errorf rt.fs lg (panicMessage r)).1, tr, .panic r1⟩
  | none =>
    match (Error rt.fs (Errorf rt.fs lg (panicMessage r)).1 rt.Stack).2 with
    | some r2 => ⟨g, (Error rt.fs (Errorf rt.fs lg (panicMessage r)).1 rt.Stack).1, tr, .panic r2⟩
    | none =>
      ⟨g, (Error rt.fs (Errorf rt.fs lg (panicMessage r)).1 rt.Stack).1, tr,
        .ret (some (.BadRequest (panicMessage r)))⟩

/-- The function `handler` (lines 74-157): the body run under the deferred function, which
does nothing when the body returned. -/
def handler (g : grpcServer) (rt : Runtime) (lg : Logger) (stream : ServerStream) :
    Dispatch :=
  match handlerBody g rt lg stream with
  | ⟨lg1, tr, .ret e⟩ => ⟨g, lg1, tr, .ret e⟩
  | ⟨lg1, tr, .panic r⟩ => recovered g rt lg1 tr r

/-! ## Registration: `RegisterWithUrl` (lines 290-344) -/

/-- Lines 299-312: the routing keys and stream flags for a method: `(reqUrl, reqMethod,
clientStream, serverStream)`, or `none` when the loop continues with the next method. -/
def endpointOf (apiEndpointMap : Option (GoMap ApiEndpoint)) (methodName : String) :
    Option (String × String × Bool × Bool) :=
  match apiEndpointMap with
  | none => some (methodName, "", false, false)
  | some mp =>
    match mp.get? methodName with
    | none => none
    | some desc => some (desc.Url, desc.Method, desc.ClientStream, desc.ServerStream)

/-- Lines 313-322: `(reqType, respType)` from the parameter list, or `none` for the panic
on a method that has neither 3 nor 4 parameters. -/
def paramTypes (m : Method) : Option (Option GoType × GoType) :=
  match m.In with
  | [_, _, resp] => some (none, resp)
  | [_, _, req, resp] => some (some req, resp)
  | _ => none

/-- The result of a registration: the registry and the logger after the call, and the
panic value when the call panicked. -/
structure Registered where
  handlers : GoMap handlerInfo
  logger : Logger
  panic : Option String
deriving DecidableEq, Repr

/-- Lines 296-338: the loop over the methods, from the given registry and logger.  Each
registration is logged after the registry is written; a panic (of the parameter check or of
the logger) ends the loop at once. -/
def registerLoop (env : LogEnv) (o : HandlerObject)
    (apiEndpointMap : Option (GoMap ApiEndpoint)) :
    List Method → GoMap handlerInfo → Logger → Registered
  | [], handlers, lg => ⟨handlers, lg, none⟩
  | m :: rest, handlers, lg =>
    let methodName := o.typeName ++ "." ++ m.Name
    match endpointOf apiEndpointMap methodName with
    | none => registerLoop env o apiEndpointMap rest handlers lg
    | some (reqUrl, reqMethod, clientStream, serverStream) =>
      match paramTypes m with
      | none => ⟨handlers, lg, some ("in param numbre error methodName:=" ++ methodName)⟩
      | some (reqType, respType) =>
        let handler : handlerInfo :=
          { handler := o, method := m, reqType := reqType, respType := respType,
            clientStream := clientStream, serverStream := serverStream }
        let handlers := handlers.set reqUrl handler
        let handlers := if reqMethod ≠ "" then handlers.set reqMethod handler else handlers
        match Infof env lg
            ("[grpcServer] Register reqUrl:" ++ reqUrl ++ " reqMethod:" ++ reqMethod) with
        | (lg1, some r) => ⟨handlers, lg1, some r⟩
        | (lg1, none) => registerLoop env o apiEndpointMap rest handlers lg1

/-- The function `RegisterWithUrl`: the server and the logger after the call and the panic
value, if the call panicked (the returned `error` is always nil). -/
def RegisterWithUrl (g : grpcServer) (env : LogEnv) (lg : Logger) (i : HandlerObject)
    (apiEndpointMap : Option (GoMap ApiEndpoint)) : grpcServer × Logger × Option String :=
  (⟨(registerLoop env i apiEndpointMap i.methods g.handlers lg).handlers⟩,
    (registerLoop env i apiEndpointMap i.methods g.handlers lg).logger,
    (registerLoop env i apiEndpointMap i.methods g.handlers lg).panic)

/-- The function `Register` (lines 342-344). -/
def Register (g : grpcServer) (env : LogEnv) (lg : Logger) (i : HandlerObject) :
    grpcServer × Logger × Option String :=
  RegisterWithUrl g env lg i none

/-- The registry of `NewServer` (lines 55-72): no handlers. -/
def NewServer : grpcServer := ⟨[]⟩


/-! ## Routing and sample data -/

/-- The call on `stream` resolves to the routing key `key`, under which the registry holds
the descriptor `h` (lines 84-97 and 145). -/
def Routes (g : grpcServer) (rt : Runtime) (stream : ServerStream) (key : String)
    (h : handlerInfo) : Prop :=
  ∃ fullMethod serviceName methodName,
    stream.fullMethod = some fullMethod ∧
    rt.ServiceMethod fullMethod = .ok (serviceName, methodName) ∧
    key = serviceName ++ "." ++ methodName ∧
    g.handlers.get? key = some h

/-- The runtime in which every handler method ends with the given result. -/
def Runtime.withResult (rt : Runtime) (result : MethodResult) : Runtime :=
  { rt with Call := fun _ _ _ => result }

/-- The runtime in which the logger finds the given clock and file system. -/
def Runtime.withFs (rt : Runtime) (env : LogEnv) : Runtime :=
  { rt with fs := env }

/-- The two logger calls of the deferred function of `handler` (lines 78-79) return, from
the logger state `lg` and for the panic value `r`. -/
def RecoverLogs (rt : Runtime) (lg : Logger) (r : String) : Prop :=
  logPanics rt.fs lg = none ∧ logPanics rt.fs (Errorf rt.fs lg (panicMessage r)).1 = none

/-- A clock and file system on day 100 of the year, with the log directory in place and
every file opening. -/
def quietEnv : LogEnv :=
  fun _ => { yearDay := 100, stat := .found, mkdirAll := none, openFile := none }

/-- A clock and file system on day 101 of the year, with a full disk: no file opens. -/
def fullDiskEnv : LogEnv :=
  fun _ =>
    { yearDay := 101, stat := .found, mkdirAll := none,
      openFile := some "no space left on device" }

/-- A logger whose current file was created on day 100 and holds no line yet. -/
def quietLogger : Logger :=
  { fileDir := "./logs/", lineCount := 0, createFileDay := 100, written := [] }

/-- A request type with a `Validate` method. -/
def Req : GoType := ⟨"Req", ["Validate"]⟩

/-- A request type without methods. -/
def PlainReq : GoType := ⟨"PlainReq", []⟩

/-- A response type without methods. -/
def Resp : GoType := ⟨"Resp", []⟩

/-- A response type with a `SetStream` method. -/
def StreamResp : GoType := ⟨"StreamResp", ["SetStream"]⟩

/-- The receiver type of the sample handler. -/
def EchoPtr : GoType := ⟨"Echo", []⟩

/-- The type `context.Context`. -/
def ContextType : GoType := ⟨"Context", []⟩

/-- The method `Echo.Say(ctx, *Req, *Resp)`. -/
def Say : Method := ⟨"Say", [EchoPtr, ContextType, Req, Resp]⟩

/-- The method `Echo.Plain(ctx, *PlainReq, *Resp)`. -/
def Plain : Method := ⟨"Plain", [EchoPtr, ContextType, PlainReq, Resp]⟩

/-- The method `Echo.Ping(ctx, *Resp)`, without a request. -/
def Ping : Method := ⟨"Ping", [EchoPtr, ContextType, Resp]⟩

/-- The method `Echo.Watch(ctx, *Req, *StreamResp)`. -/
def Watch : Method := ⟨"Watch", [EchoPtr, ContextType, Req, StreamResp]⟩

/-- The sample handler object, its methods in the order of `reflect`. -/
def Echo : HandlerObject := ⟨"Echo", [Ping, Plain, Say, Watch]⟩

/-- The descriptor of `Echo.Say` as `Register` builds it. -/
def sayInfo : handlerInfo :=
  { handler := Echo, method := Say, reqType := some Req, respType := Resp,
    clientStream := false, serverStream := false }

/-- The descriptor of `Echo.Plain` as `Register` builds it. -/
def plainInfo : handlerInfo :=
  { handler := Echo, method := Plain, reqType := some PlainReq, respType := Resp,
    clientStream := false, serverStream := false }

/-- The descriptor of `Echo.Ping` as `Register` builds it. -/
def pingInfo : handlerInfo :=
  { handler := Echo, method := Ping, reqType := none, respType := Resp,
    clientStream := false, serverStream := false }

/-- A server with the sample handler registered by `Register`. -/
def echoServer : grpcServer := (Register NewServer quietEnv quietLogger Echo).1

/-- Modelled from the spec: the JSON fallback codec of package `codec`, which is not among
the sources; here an empty raw message does not parse. -/
def jsonCodec : Codec :=
  { Name := "json"
    Unmarshal := fun raw _ => if raw = "" then .err "unexpected end of JSON input" else .ok raw }

/-- Modelled from the spec: the default compact binary codec of package `codec`, which is
not among the sources. -/
def protoCodec : Codec :=
  { Name := "proto", Unmarshal := fun raw _ => .ok raw }

/-- Modelled from the spec: a table `codec.DefaultGRPCCodecs` (not among the sources) that
selects the codec by the content type string, with one JSON and one binary entry. -/
def sampleCodecs (contentType : String) : Option Codec :=
  if contentType = "application/json" then some jsonCodec
  else if contentType = "application/grpc" then some protoCodec
  else none

/-- Modelled from the spec: the helper `ServiceMethod` (not among the sources), which
resolves a call identity into a service and a method name; here on the identities
`/Echo/<Method>` of the sample handler. -/
def sampleServiceMethod (fullMethod : String) : Call (String × String) :=
  if fullMethod = "/Echo/Say" then .ok ("Echo", "Say")
  else if fullMethod = "/Echo/Plain" then .ok ("Echo", "Plain")
  else if fullMethod = "/Echo/Ping" then .ok ("Echo", "Ping")
  else if fullMethod = "/Echo/Watch" then .ok ("Echo", "Watch")
  else if fullMethod = "/Echo/Missing" then .ok ("Echo", "Missing")
  else .err "malformed method name"

/-- A runtime for the sample handler: `Validate` rejects the empty text, every handler
method ends with `result`, an `Errno` prints as its message, `json.Marshal` gives the value
as it is, and the logger finds `quietEnv`. -/
def sampleRuntime (result : MethodResult) : Runtime :=
  { DefaultGRPCCodecs := sampleCodecs
    ServiceMethod := sampleServiceMethod
    Validate := fun _ argv => if argv = "" then .err "empty text" else .ok ()
    SetStream := fun _ => .ok ()
    ErrnoError := fun _ msg => msg
    Marshal := fun v => .ok v
    Stack := "goroutine 1 [running]:"
    fs := quietEnv
    Call := fun _ _ _ => result }

/-- An inbound call with the given identity and metadata, on which every `RecvMsg` ends with
`recv` and every `SendMsg` with `send`. -/
def sampleStream (fullMethod : String) (md : GoMap (List String)) (recv : Call Val)
    (send : Call Unit) : ServerStream :=
  { fullMethod := some fullMethod
    incoming := some md
    peer := none
    RecvMsg := fun _ => recv
    SendMsg := fun _ => send }

/-- The context of a sample call without metadata. -/
def plainContext : Context :=
  { md := [("content-type", "application/grpc"), ("x-content-type", "application/grpc")]
    peer := none
    timeout := none }

end GoVkit.grpcserver

/-! ## Registration as the specification words it -/

namespace GoVkit.grpcserver

/-- The descriptor of a method by its parameter shape: with 4 parameters the third is the
request type, otherwise there is none; the last parameter is the response type. -/
def specDescriptor (o : HandlerObject) (m : Method) (clientStream serverStream : Bool) :
    handlerInfo :=
  { handler := o
    method := m
    reqType := if m.NumIn = 4 then m.In.get? 2 else none
    respType := m.In.getLastD ⟨"", []⟩
    clientStream := clientStream
    serverStream := serverStream }

/-- The registrations of one method, in the order they are made: without an endpoint map,
one under `TypeName.MethodName` with both stream flags false; with an endpoint map, none
for a method absent from it, and otherwise one under the endpoint's URL and, when the
endpoint's method alias is not empty, a second one under the alias, both with the
endpoint's stream flags. -/
def specMethodRegistrations (o : HandlerObject) (apiEndpointMap : Option (GoMap ApiEndpoint))
    (m : Method) : List (String × handlerInfo) :=
  match apiEndpointMap with
  | none => [(o.typeName ++ "." ++ m.Name, specDescriptor o m false false)]
  | some mp =>
    match mp.get? (o.typeName ++ "." ++ m.Name) with
    | none => []
    | some desc =>
      if desc.Method = "" then
        [(desc.Url, specDescriptor o m desc.ClientStream desc.ServerStream)]
      else
        [(desc.Url, specDescriptor o m desc.ClientStream desc.ServerStream),
          (desc.Method, specDescriptor o m desc.ClientStream desc.ServerStream)]

/-- The registrations of a list of methods, in order. -/
def specRegistrations (o : HandlerObject) (apiEndpointMap : Option (GoMap ApiEndpoint)) :
    List Method → List (String × handlerInfo)
  | [] => []
  | m :: rest =>
    specMethodRegistrations o apiEndpointMap m ++ specRegistrations o apiEndpointMap rest

/-- The last registration made under a key, if any. -/
def lastRegistration (regs : List (String × handlerInfo)) (k : String) : Option handlerInfo :=
  GoMap.get? regs.reverse k

/-- An endpoint map for the sample handler: `Say` under a URL and an alias, `Watch` as a
server stream under a URL only. -/
def sampleEndpoints : GoMap ApiEndpoint :=
  [("Echo.Say", ⟨"say", "/rpc/echo/say", false, false⟩),
   ("Echo.Watch", ⟨"", "/rpc/echo/watch", false, true⟩)]

/-- The descriptor of `Echo.Watch` under `sampleEndpoints`. -/
def watchInfo : handlerInfo :=
  { handler := Echo, method := Watch, reqType := some Req, respType := StreamResp,
    clientStream := false, serverStream := true }

/-- A server with the sample handler registered through `sampleEndpoints`. -/
def endpointServer : grpcServer :=
  (RegisterWithUrl NewServer quietEnv quietLogger Echo (some sampleEndpoints)).1

/-- Incoming metadata whose `x-content-type` names JSON while `content-type` names the
default binary encoding. -/
def mixedHeaders : GoMap (List String) :=
  [("x-content-type", ["application/json"]), ("content-type", ["application/grpc"])]

/-- The context of a sample call with `mixedHeaders`. -/
def mixedContext : Context :=
  { md := [("content-type", "application/grpc"), ("x-content-type", "application/json"),
      ("content-type", "application/grpc"), ("x-content-type", "application/json")]
    peer := none
    timeout := none }

end GoVkit.grpcserver

/-! ## Sample data for the timeout -/

namespace GoVkit.grpcserver

/-- Incoming metadata whose `timeout` entry is `2^63`, the least value that does not fit the
signed 64-bit `time.Duration`. -/
def overflowHeaders : GoMap (List String) :=
  [("timeout", ["9223372036854775808"])]

/-- The context of a sample call with `overflowHeaders`. -/
def overflowContext : Context :=
  { md := [("content-type", "application/grpc"), ("x-content-type", "application/grpc")]
    peer := none
    timeout := some (-9223372036854775808) }

/-- Incoming metadata whose `timeout` entry is one millisecond. -/
def millisecondHeaders : GoMap (List String) :=
  [("timeout", ["1000000"])]

end GoVkit.grpcserver

/-! ## Lemmas on maps, the logger, traces and routing -/

namespace GoVkit.grpcserver

theorem GoMap.get?_set {β : Type} (m : GoMap β) (k k' : String) (v : β) :
    GoMap.get? (GoMap.set m k v) k' = if k = k' then some v else GoMap.get? m k' := by
  simp [GoMap.set, GoMap.get?]

theorem GoMap.get?_append {β : Type} (m₁ m₂ : GoMap β) (k : String) :
    GoMap.get? (m₁ ++ m₂) k = (GoMap.get? m₁ k).orElse (fun _ => GoMap.get? m₂ k) := by
  induction m₁ with
  | nil => simp [GoMap.get?]
  | cons p rest ih =>
    obtain ⟨k', v⟩ := p
    by_cases hk : k' = k
    · simp [GoMap.get?, hk]
    · simpa [GoMap.get?, hk] using ih

theorem GoMap.mem_of_get? {β : Type} (m : GoMap β) (k : String) (v : β)
    (h : GoMap.get? m k = some v) : (k, v) ∈ m := by
  induction m with
  | nil => simp [GoMap.get?] at h
  | cons p rest ih =>
    obtain ⟨k', v'⟩ := p
    by_cases hk : k' = k
    · simp [GoMap.get?, hk] at h
      simp [hk, h]
    · simp [GoMap.get?, hk] at h
      exact List.mem_cons_of_mem _ (ih h)

theorem GoMap.get?_of_mem {β : Type} (m : GoMap β) (k : String) (v : β)
    (h : (k, v) ∈ m) : ∃ v', GoMap.get? m k = some v' := by
  induction m with
  | nil => simp at h
  | cons p rest ih =>
    obtain ⟨k', v'⟩ := p
    by_cases hk : k' = k
    · exact ⟨v', by simp [GoMap.get?, hk]⟩
    · have hne : (k, v) ≠ (k', v') := fun heq => hk (by simp at heq; exact heq.1.symm)
      rcases List.mem_cons.mp h with heq | hmem
      · exact absurd heq hne
      · obtain ⟨w, hw⟩ := ih hmem
        exact ⟨w, by simp [GoMap.get?, hk, hw]⟩

theorem GoMap.get?_eq_none {β : Type} (m : GoMap β) (k : String)
    (h : ∀ p ∈ m, p.1 ≠ k) : GoMap.get? m k = none := by
  induction m with
  | nil => rfl
  | cons p rest ih =>
    obtain ⟨k', v'⟩ := p
    have hk : k' ≠ k := h (k', v') (List.mem_cons_self _ _)
    simp only [GoMap.get?, hk, if_false]
    exact ih (fun q hq => h q (List.mem_cons_of_mem _ hq))

theorem GoMap.get?_delete {β : Type} (m : GoMap β) (k k' : String) :
    GoMap.get? (GoMap.delete m k) k' = if k' = k then none else GoMap.get? m k' := by
  induction m with
  | nil => simp [GoMap.delete, GoMap.get?]
  | cons p rest ih =>
    obtain ⟨k₀, v⟩ := p
    simp only [GoMap.delete] at ih
    by_cases h0 : k₀ = k
    · subst h0
      by_cases h1 : k' = k₀
      · subst h1
        simpa [GoMap.delete, List.filter] using ih
      · have h2 : ¬ k₀ = k' := fun h => h1 h.symm
        simpa [GoMap.delete, List.filter, GoMap.get?, h1, h2] using ih
    · by_cases h1 : k' = k
      · subst h1
        simpa [GoMap.delete, List.filter, GoMap.get?, h0] using ih
      · by_cases h2 : k₀ = k'
        · simp [GoMap.delete, List.filter, GoMap.get?, h0, h1, h2]
        · simpa [GoMap.delete, List.filter, GoMap.get?, h0, h1, h2] using ih

/-- With 3 or 4 parameters, lines 313-322 find the types the specification describes. -/
theorem paramTypes_of_shape (o : HandlerObject) (m : Method) (c s : Bool)
    (hm : m.NumIn = 3 ∨ m.NumIn = 4) :
    paramTypes m =
      some ((specDescriptor o m c s).reqType, (specDescriptor o m c s).respType) := by
  obtain ⟨name, ins⟩ := m
  simp only [Method.NumIn] at hm
  rcases hm with hm | hm
  · match ins, hm with
    | [a, b, c'], _ => simp [paramTypes, specDescriptor, Method.NumIn]
  · match ins, hm with
    | [a, b, c', d], _ => simp [paramTypes, specDescriptor, Method.NumIn]

/-- Registrations without an endpoint map: the key and the form of every entry. -/
theorem specRegistrations_nil_mem (o : HandlerObject) (ms : List Method) (k : String)
    (h : handlerInfo) (hmem : (k, h) ∈ specRegistrations o none ms) :
    ∃ m ∈ ms, k = o.typeName ++ "." ++ m.Name ∧ h = specDescriptor o m false false := by
  induction ms with
  | nil => simp [specRegistrations] at hmem
  | cons m rest ih =>
    simp only [specRegistrations, specMethodRegistrations, List.mem_append,
      List.mem_singleton, Prod.mk.injEq] at hmem
    rcases hmem with ⟨hk, hh⟩ | hmem
    · exact ⟨m, List.mem_cons_self _ _, hk, hh⟩
    · obtain ⟨m', hm', hk, hh⟩ := ih hmem
      exact ⟨m', List.mem_cons_of_mem _ hm', hk, hh⟩

/-- Registrations without an endpoint map: every method has an entry. -/
theorem specRegistrations_nil_key (o : HandlerObject) (ms : List Method) (m : Method)
    (hm : m ∈ ms) :
    (o.typeName ++ "." ++ m.Name, specDescriptor o m false false) ∈
      specRegistrations o none ms := by
  induction ms with
  | nil => simp at hm
  | cons m' rest ih =>
    simp only [specRegistrations, specMethodRegistrations, List.mem_append,
      List.mem_singleton]
    rcases List.mem_cons.mp hm with heq | hmem
    · left
      rw [heq]
    · right
      exact ih hmem

theorem String.append_left_cancel (a b c : String) (h : a ++ b = a ++ c) : b = c := by
  have hd := congrArg String.data h
  simp only [String.data_append] at hd
  exact String.ext (List.append_cancel_left hd)

/-- Binding the stream does not invoke the handler method. -/
theorem bindStream_trace (rt : Runtime) (respType : GoType) (tr : List Event)
    (s : Step Unit) (hb : bindStream rt respType = (tr, s)) :
    tr.countP Event.isCall = 0 := by
  unfold bindStream at hb
  repeat' split at hb
  all_goals (cases hb; simp [Event.isCall])

/-- The digit loop stays below `2^64`. -/
theorem parseUintDigits_lt (cs : List Char) (n m : Nat) (hn : n < 2 ^ 64)
    (h : parseUintDigits cs n = some m) : m < 2 ^ 64 := by
  induction cs generalizing n with
  | nil =>
    simp only [parseUintDigits, Option.some.injEq] at h
    omega
  | cons c cs ih =>
    simp only [parseUintDigits] at h
    split at h
    · split at h
      · rename_i hlt
        exact ih _ hlt h
      · cases h
    · cases h

/-- A value parsed by `ParseUint` fits 64 bits. -/
theorem ParseUint_lt (s : String) (n : Nat) (h : ParseUint s = some n) : n < 2 ^ 64 := by
  unfold ParseUint at h
  split at h
  · cases h
  · exact parseUintDigits_lt s.data 0 n (by norm_num) h

/-- The empty string does not parse. -/
theorem ParseUint_empty : ParseUint "" = none := by
  decide

/-- Lines 136-143: a timeout is installed exactly when the value parses, and it is the
`Duration` of the parsed number. -/
theorem timeoutOf_eq (tout : String) : timeoutOf tout = (ParseUint tout).map Duration := by
  unfold timeoutOf
  by_cases hlen : tout.length > 0
  · simp only [hlen, if_true]
    cases ParseUint tout <;> rfl
  · have hdata : tout.data = [] := by
      have h0 : tout.data.length = 0 := by
        have : tout.length = tout.data.length := rfl
        omega
      exact List.length_eq_zero.mp h0
    simp [hlen, ParseUint, hdata]

/-- Below `2^63` the conversion to `time.Duration` keeps the value. -/
theorem Duration_of_lt (n : Nat) (h : n < 2 ^ 63) : Duration n = (n : Int) := by
  have h1 : n % 2 ^ 64 = n := Nat.mod_eq_of_lt (by omega)
  unfold Duration
  rw [h1, if_pos h]

/-- From `2^63` on the conversion to `time.Duration` wraps to a negative value. -/
theorem Duration_of_ge (n : Nat) (h : 2 ^ 63 ≤ n) (h64 : n < 2 ^ 64) :
    Duration n = (n : Int) - 2 ^ 64 ∧ Duration n < 0 := by
  have h1 : n % 2 ^ 64 = n := Nat.mod_eq_of_lt h64
  have h2 : ¬ n < 2 ^ 63 := by omega
  have h3 : Duration n = (n : Int) - 2 ^ 64 := by
    unfold Duration
    rw [h1, if_neg h2]
  refine ⟨h3, ?_⟩
  rw [h3]
  have : (n : Int) < 2 ^ 64 := by exact_mod_cast h64
  omega

/-- The context carries the timeout computed from the joined `timeout` entry. -/
theorem callContext_timeout (stream : ServerStream) :
    (callContext stream).2.2.timeout =
      timeoutOf (((joinMD (stream.incoming.getD [])).get? "timeout").getD "") := by
  cases hinc : stream.incoming <;> simp only [callContext, hinc, Option.getD]

/-- The metadata handed to the handler has no `timeout` entry. -/
theorem callContext_no_timeout_key (stream : ServerStream) :
    (callContext stream).2.2.md.get? "timeout" = none := by
  simp only [callContext]
  cases stream.peer with
  | none => simp [GoMap.get?_delete]
  | some addr => simp [GoMap.get?_set, GoMap.get?_delete]

/-- The timeout for every value of the `timeout` entry: one is installed exactly when the
value is not empty and parses; it is the parsed number of nanoseconds below `2^63`, and a
negative duration from `2^63` on. -/
theorem timeoutOf_cases (tout : String) :
    ((timeoutOf tout).isSome ↔ tout ≠ "" ∧ (ParseUint tout).isSome) ∧
    (∀ n, ParseUint tout = some n → n < 2 ^ 63 → timeoutOf tout = some (n : Int)) ∧
    (∀ n, ParseUint tout = some n → 2 ^ 63 ≤ n →
      timeoutOf tout = some ((n : Int) - 2 ^ 64) ∧ (n : Int) - 2 ^ 64 < 0) := by
  refine ⟨?_, ?_, ?_⟩
  · rw [timeoutOf_eq]
    constructor
    · intro h
      have hp : (ParseUint tout).isSome := by
        cases hp : ParseUint tout with
        | none => simp [hp] at h
        | some n => rfl
      refine ⟨?_, hp⟩
      intro he
      rw [he, ParseUint_empty] at hp
      cases hp
    · intro h
      cases hp : ParseUint tout with
      | none => simp [hp] at h
      | some n => rfl
  · intro n hn hlt
    rw [timeoutOf_eq, hn, Option.map_some', Duration_of_lt n hlt]
  · intro n hn hge
    have h := Duration_of_ge n hge (ParseUint_lt tout n hn)
    rw [timeoutOf_eq, hn, Option.map_some', h.1]
    exact ⟨rfl, h.1 ▸ h.2⟩

/-- Whether `tryNewFile` panics depends on the line count, the day and the directory
only. -/
theorem tryNewFile_panics_eq (lg lg' : Logger) (fs : FileSystem) (force : Bool)
    (h1 : lg.lineCount = lg'.lineCount) (h2 : lg.createFileDay = lg'.createFileDay)
    (h3 : lg.fileDir = lg'.fileDir) :
    (tryNewFile lg fs force).2 = (tryNewFile lg' fs force).2 := by
  unfold tryNewFile
  rw [h1, h2, h3]
  by_cases hc : lg'.lineCount > FileMaxLine ∨ lg'.createFileDay ≠ fs.yearDay ∨ force = true
  · simp only [hc, if_true]
    cases fs.stat <;> cases fs.mkdirAll <;> cases fs.openFile <;> rfl
  · simp only [hc, if_false]

/-- Whether a logger call panics does not depend on the level or the message. -/
theorem formatAndWrite_panics (env : LogEnv) (lg : Logger) (l : Level) (text : String) :
    (formatAndWrite env lg l text).2 = logPanics env lg := by
  unfold logPanics formatAndWrite
  exact tryNewFile_panics_eq _ _ _ _ rfl rfl rfl

theorem Errorf_panics (env : LogEnv) (lg : Logger) (text : String) :
    (Errorf env lg text).2 = logPanics env lg :=
  formatAndWrite_panics env lg _ text

theorem Error_panics (env : LogEnv) (lg : Logger) (text : String) :
    (Error env lg text).2 = logPanics env lg :=
  formatAndWrite_panics env lg _ text

theorem Infof_panics (env : LogEnv) (lg : Logger) (text : String) :
    (Infof env lg text).2 = logPanics env lg :=
  formatAndWrite_panics env lg _ text

theorem Info_panics (env : LogEnv) (lg : Logger) (text : String) :
    (Info env lg text).2 = logPanics env lg :=
  formatAndWrite_panics env lg _ text

/-- Receiving and decoding neither validates, nor invokes the handler, nor sends. -/
theorem decodeRequest_trace (rt : Runtime) (lg : Logger) (stream : ServerStream)
    (reqType : GoType) (xct : String) :
    ∀ ev ∈ (decodeRequest rt lg stream reqType xct).2.1,
      ev.isValidate = false ∧ ev.isCall = false ∧ ev.isSend = false := by
  unfold decodeRequest
  repeat' split
  all_goals simp [Event.isSend, Event.isCall, Event.isValidate]

/-- Validation neither invokes the handler nor sends. -/
theorem validateRequest_trace (rt : Runtime) (lg : Logger) (reqType : GoType) (argv : Val) :
    ∀ ev ∈ (validateRequest rt lg reqType argv).2.1, ev.isCall = false ∧ ev.isSend = false := by
  unfold validateRequest
  repeat' split
  all_goals simp [Event.isSend, Event.isCall]

/-- A routed call whose descriptor has no stream flag runs `processRequest`. -/
theorem handlerBody_unary (g : grpcServer) (rt : Runtime) (lg : Logger)
    (stream : ServerStream) (key : String) (h : handlerInfo) (hr : Routes g rt stream key h)
    (hc : h.clientStream = false) (hs : h.serverStream = false) :
    handlerBody g rt lg stream =
      processRequest rt lg stream h (callContext stream).1 (callContext stream).2.1 key
        (callContext stream).2.2 := by
  obtain ⟨fm, sn, mn, h1, h2, h3, h4⟩ := hr
  subst h3
  simp [handlerBody, h1, h2, h4, hc, hs]

/-- A routed call whose descriptor has a stream flag runs `processStream`, which leaves the
logger alone. -/
theorem handlerBody_stream (g : grpcServer) (rt : Runtime) (lg : Logger)
    (stream : ServerStream) (key : String) (h : handlerInfo) (hr : Routes g rt stream key h)
    (hcs : h.clientStream = true ∨ h.serverStream = true) :
    handlerBody g rt lg stream =
      ⟨lg,
        (processStream rt stream h (callContext stream).1 (callContext stream).2.1 key
          (callContext stream).2.2).trace,
        (processStream rt stream h (callContext stream).1 (callContext stream).2.1 key
          (callContext stream).2.2).out⟩ := by
  obtain ⟨fm, sn, mn, h1, h2, h3, h4⟩ := hr
  subst h3
  rcases hcs with hc | hc <;> simp [handlerBody, h1, h2, h4, hc]

/-- The result of `handler` on a body that returned. -/
theorem handler_of_ret (g : grpcServer) (rt : Runtime) (lg lg1 : Logger)
    (stream : ServerStream) (tr : List Event) (e : Option Err)
    (hb : handlerBody g rt lg stream = ⟨lg1, tr, .ret e⟩) :
    handler g rt lg stream = ⟨g, lg1, tr, .ret e⟩ := by
  simp [handler, hb]

/-- The result of `handler` on a body that panicked. -/
theorem handler_of_panic (g : grpcServer) (rt : Runtime) (lg lg1 : Logger)
    (stream : ServerStream) (tr : List Event) (r : String)
    (hb : handlerBody g rt lg stream = ⟨lg1, tr, .panic r⟩) :
    handler g rt lg stream = recovered g rt lg1 tr r := by
  simp [handler, hb]

/-- The deferred function makes no call into the transport or user code and leaves the
registry alone. -/
theorem recovered_trace (g : grpcServer) (rt : Runtime) (lg : Logger) (tr : List Event)
    (r : String) : (recovered g rt lg tr r).trace = tr ∧ (recovered g rt lg tr r).server = g := by
  unfold recovered
  repeat' split
  all_goals exact ⟨rfl, rfl⟩

/-- The deferred function ends with the bad-request error when its two logger calls
return. -/
theorem recovered_of_logs (g : grpcServer) (rt : Runtime) (lg : Logger) (tr : List Event)
    (r : String) (hl : RecoverLogs rt lg r) :
    (recovered g rt lg tr r).out = .ret (some (.BadRequest (panicMessage r))) := by
  obtain ⟨h1, h2⟩ := hl
  unfold recovered
  rw [Errorf_panics, h1]
  simp only
  rw [Error_panics, h2]

/-- The deferred function ends with a panic when one of its two logger calls panics. -/
theorem recovered_of_no_logs (g : grpcServer) (rt : Runtime) (lg : Logger) (tr : List Event)
    (r : String) (hl : ¬ RecoverLogs rt lg r) :
    ∃ r', (recovered g rt lg tr r).out = .panic r' := by
  unfold RecoverLogs at hl
  unfold recovered
  rw [Errorf_panics, Error_panics]
  cases h1 : logPanics rt.fs lg with
  | some r1 => exact ⟨r1, rfl⟩
  | none =>
    cases h2 : logPanics rt.fs (Errorf rt.fs lg (panicMessage r)).1 with
    | some r2 => exact ⟨r2, rfl⟩
    | none => exact absurd ⟨h1, h2⟩ hl

/-- The calls of `handler` are those of its body, and the registry is left alone. -/
theorem handler_trace (g : grpcServer) (rt : Runtime) (lg : Logger) (stream : ServerStream) :
    (handler g rt lg stream).trace = (handlerBody g rt lg stream).trace ∧
    (handler g rt lg stream).server = g := by
  unfold handler
  split
  · rename_i hb
    rw [hb]
    exact ⟨rfl, rfl⟩
  · rename_i hb
    rw [hb]
    exact recovered_trace _ _ _ _ _

/-- The unary invoker after a successful decode and validation. -/
theorem processRequest_invoke (rt : Runtime) (lg lg1 lg2 : Logger) (stream : ServerStream)
    (h : handlerInfo) (ct xct methodName : String) (ctx : Context) (reqType : GoType)
    (tr1 tr2 : List Event) (argv : Val) (hreq : h.reqType = some reqType)
    (hdec : decodeRequest rt lg stream reqType xct = (lg1, tr1, .next argv))
    (hval : validateRequest rt lg1 reqType argv = (lg2, tr2, .next ())) :
    processRequest rt lg stream h ct xct methodName ctx =
      match rt.Call h ctx (some argv) with
      | .panics r => ⟨lg2, tr1 ++ tr2 ++ [.Call h ctx (some argv)], .panic r⟩
      | .returns replyv out0 =>
        match interpretResult rt lg2 out0 with
        | (lg3, .ret e) => ⟨lg3, tr1 ++ tr2 ++ [.Call h ctx (some argv)], .ret e⟩
        | (lg3, .panic r) => ⟨lg3, tr1 ++ tr2 ++ [.Call h ctx (some argv)], .panic r⟩
        | (lg3, .next ()) =>
          ⟨(sendReply rt lg3 stream methodName argv replyv).1,
            tr1 ++ tr2 ++ [.Call h ctx (some argv)] ++
              (sendReply rt lg3 stream methodName argv replyv).2.1,
            (sendReply rt lg3 stream methodName argv replyv).2.2⟩ := by
  simp only [processRequest, hreq, hdec, hval]

/-- The events of `sendReply`: the one `SendMsg`. -/
theorem sendReply_trace (rt : Runtime) (lg : Logger) (stream : ServerStream)
    (methodName : String) (argv replyv : Val) :
    (sendReply rt lg stream methodName argv replyv).2.1 = [.SendMsg replyv] := by
  unfold sendReply
  split <;> rfl

/-- The interpretation of an `*errorsx.Errno` with a code other than 0. -/
theorem interpretResult_errno (rt : Runtime) (lg : Logger) (Code : Int) (Msg : String)
    (hc : Code ≠ 0) :
    interpretResult rt lg (.errno Code Msg) =
      ((Errorf rt.fs lg ("[grpcserver] call error: " ++ rt.ErrnoError Code Msg)).1,
        match logPanics rt.fs lg with
        | some r => .panic r
        | none => .ret (some (.BusinessError Code Msg))) := by
  simp only [interpretResult, ne_eq, hc, not_false_eq_true, if_true, Step.afterLog,
    Errorf_panics]

/-- The interpretation of an error that is not an `*errorsx.Errno`. -/
theorem interpretResult_error (rt : Runtime) (lg : Logger) (text : String) :
    interpretResult rt lg (.error text) =
      ((Errorf rt.fs lg ("[grpcserver] call error: " ++ text)).1,
        match logPanics rt.fs lg with
        | some r => .panic r
        | none => .ret (some (.BusinessError (-2) ("[grpcserver] call error: " ++ text)))) := by
  simp only [interpretResult, Step.afterLog, Errorf_panics]

/-- The end of `sendReply` after a successful send. -/
theorem sendReply_ok (rt : Runtime) (lg : Logger) (stream : ServerStream)
    (methodName : String) (argv replyv : Val) (hsend : stream.SendMsg replyv = .ok ())
    (hA : ∀ r, rt.Marshal argv ≠ .panic r) (hB : ∀ r, rt.Marshal replyv ≠ .panic r)
    (hlog : logPanics rt.fs lg = none) :
    (sendReply rt lg stream methodName argv replyv).2.2 = .ret none := by
  simp only [sendReply, hsend, logSuccess]
  cases hmA : rt.Marshal argv with
  | panic r => exact absurd hmA (hA r)
  | ok a =>
    cases hmB : rt.Marshal replyv with
    | panic r => exact absurd hmB (hB r)
    | ok b => simp only [Info_panics, hlog, Outcome.afterLog]
    | err b => simp only [Info_panics, hlog, Outcome.afterLog]
  | err a =>
    cases hmB : rt.Marshal replyv with
    | panic r => exact absurd hmB (hB r)
    | ok b => simp only [Info_panics, hlog, Outcome.afterLog]
    | err b => simp only [Info_panics, hlog, Outcome.afterLog]

/-- The end of `sendReply` after a failed send. -/
theorem sendReply_err (rt : Runtime) (lg : Logger) (stream : ServerStream)
    (methodName : String) (argv replyv : Val) (e : String)
    (hsend : stream.SendMsg replyv = .err e) :
    (sendReply rt lg stream methodName argv replyv).2.2 =
      match logPanics rt.fs lg with
      | some r => .panic r
      | none => .ret (some (.BusinessError (-2) ("[grpcserver] send error: " ++ e))) := by
  simp only [sendReply, hsend, Outcome.afterLog, Errorf_panics]

/-- A loop of `RegisterWithUrl` that does not panic makes the registrations of the
specification, in order. -/
theorem registerLoop_spec (env : LogEnv) (o : HandlerObject)
    (mp : Option (GoMap ApiEndpoint)) (ms : List Method) (hs : GoMap handlerInfo)
    (lg : Logger) (hshape : ∀ m ∈ ms, m.NumIn = 3 ∨ m.NumIn = 4)
    (hret : (registerLoop env o mp ms hs lg).panic = none) :
    (registerLoop env o mp ms hs lg).handlers = (specRegistrations o mp ms).reverse ++ hs := by
  induction ms generalizing hs lg with
  | nil => simp [registerLoop, specRegistrations]
  | cons m rest ih =>
    have hrest : ∀ m' ∈ rest, m'.NumIn = 3 ∨ m'.NumIn = 4 :=
      fun m' hm' => hshape m' (List.mem_cons_of_mem _ hm')
    have hm := hshape m (List.mem_cons_self _ _)
    cases mp with
    | none =>
      simp only [registerLoop, endpointOf, paramTypes_of_shape o m false false hm] at hret ⊢
      rcases hinf : Infof env lg
        ("[grpcServer] Register reqUrl:" ++ (o.typeName ++ "." ++ m.Name) ++ " reqMethod:" ++ "")
        with ⟨lg1, p⟩
      rw [hinf] at hret
      cases p with
      | some r => simp at hret
      | none =>
        simp only at hret ⊢
        rw [ih _ _ hrest hret]
        simp [GoMap.set, specDescriptor, specRegistrations, specMethodRegistrations]
    | some mp =>
      cases hd : mp.get? (o.typeName ++ "." ++ m.Name) with
      | none =>
        simp only [registerLoop, endpointOf, hd] at hret ⊢
        rw [ih _ _ hrest hret]
        simp [specRegistrations, specMethodRegistrations, hd]
      | some desc =>
        simp only [registerLoop, endpointOf, hd,
          paramTypes_of_shape o m desc.ClientStream desc.ServerStream hm] at hret ⊢
        rcases hinf : Infof env lg
          ("[grpcServer] Register reqUrl:" ++ desc.Url ++ " reqMethod:" ++ desc.Method)
          with ⟨lg1, p⟩
        rw [hinf] at hret
        cases p with
        | some r => simp at hret
        | none =>
          simp only at hret ⊢
          rw [ih _ _ hrest hret]
          by_cases hmeth : desc.Method = ""
          · simp [GoMap.set, specDescriptor, specRegistrations, specMethodRegistrations, hd,
              hmeth]
          · simp [GoMap.set, specDescriptor, specRegistrations, specMethodRegistrations, hd,
              hmeth]

/-- Without a request type, line 203 panics before anything else happens. -/
theorem processRequest_no_request_type (rt : Runtime) (lg : Logger) (stream : ServerStream)
    (h : handlerInfo) (ct xct methodName : String) (ctx : Context) (hreq : h.reqType = none) :
    processRequest rt lg stream h ct xct methodName ctx = ⟨lg, [], .panic nilDereference⟩ := by
  simp only [processRequest, hreq]

/-- The events of `decodeRequest` are all decode events. -/
theorem decodeRequest_filter (rt : Runtime) (lg : Logger) (stream : ServerStream)
    (reqType : GoType) (xct : String) :
    (decodeRequest rt lg stream reqType xct).2.1.filter Event.isDecode =
      (decodeRequest rt lg stream reqType xct).2.1 := by
  unfold decodeRequest
  repeat' split
  all_goals simp [Event.isDecode]

/-- The events of `validateRequest` are not decode events. -/
theorem validateRequest_filter (rt : Runtime) (lg : Logger) (reqType : GoType) (argv : Val) :
    (validateRequest rt lg reqType argv).2.1.filter Event.isDecode = [] := by
  unfold validateRequest
  repeat' split
  all_goals simp [Event.isDecode]

/-- The decode events of a unary call are those of `decodeRequest` under `xct`. -/
theorem processRequest_decode_events (rt : Runtime) (lg : Logger) (stream : ServerStream)
    (h : handlerInfo) (ct xct methodName : String) (ctx : Context) (reqType : GoType)
    (hreq : h.reqType = some reqType) :
    (processRequest rt lg stream h ct xct methodName ctx).trace.filter Event.isDecode =
      (decodeRequest rt lg stream reqType xct).2.1 := by
  have hd := decodeRequest_filter rt lg stream reqType xct
  simp only [processRequest, hreq]
  rcases hdec : decodeRequest rt lg stream reqType xct with ⟨lg1, tr1, s1⟩
  rw [hdec] at hd
  simp only at hd
  cases s1 with
  | ret e => simpa using hd
  | panic r => simpa using hd
  | next argv =>
    have hv := validateRequest_filter rt lg1 reqType argv
    rcases hval : validateRequest rt lg1 reqType argv with ⟨lg2, tr2, s2⟩
    rw [hval] at hv
    simp only at hv
    cases s2 with
    | ret e => simp [hval, List.filter_append, hd, hv]
    | panic r => simp [hval, List.filter_append, hd, hv]
    | next u =>
      cases hcall : rt.Call h ctx (some argv) with
      | panics r => simp [hval, hcall, List.filter_append, hd, hv, Event.isDecode]
      | returns replyv out0 =>
        rcases hint : interpretResult rt lg2 out0 with ⟨lg3, s3⟩
        cases s3 with
        | ret e => simp [hval, hcall, hint, List.filter_append, hd, hv, Event.isDecode]
        | panic r => simp [hval, hcall, hint, List.filter_append, hd, hv, Event.isDecode]
        | next u' =>
          simp [hval, hcall, hint, List.filter_append, hd, hv, Event.isDecode,
            sendReply_trace]

/-! ## The claims -/

/-- C1, as stated, fails: on a call to `Echo.Say` that decodes and validates and whose
handler returns an `Errno` with code 7, the logger call made before the return finds a full
disk and panics, and `processRequest` ends with that panic, not with the business error. -/
theorem processRequest_errno_counterexample :
    decodeRequest ((sampleRuntime (.returns "hi" (.errno 7 "quota"))).withFs fullDiskEnv)
        quietLogger (sampleStream "/Echo/Say" [] (.ok "hi") (.ok ())) Req "application/grpc" =
      (quietLogger, [.RecvMsg (.typed Req)], .next "hi") ∧
    validateRequest ((sampleRuntime (.returns "hi" (.errno 7 "quota"))).withFs fullDiskEnv)
        quietLogger Req "hi" =
      (quietLogger, [.Validate Req "hi"], .next ()) ∧
    ((sampleRuntime (.returns "hi" (.errno 7 "quota"))).withFs fullDiskEnv).Call sayInfo
        plainContext (some "hi") = .returns "hi" (.errno 7 "quota") ∧
    (processRequest ((sampleRuntime (.returns "hi" (.errno 7 "quota"))).withFs fullDiskEnv)
        quietLogger (sampleStream "/Echo/Say" [] (.ok "hi") (.ok ())) sayInfo
        "application/grpc" "application/grpc" "Echo.Say" plainContext).out =
      .panic "open log file failed, err:no space left on device" := by
  decide

/-- C1, amended: in `processRequest`, after a successful decode and validation, a handler
result that is an `*errorsx.Errno` with code 0 gives exactly the run of a nil result with
the same reply: the reply is sent with `SendMsg`, and the call returns nil when the send
succeeds and neither `json.Marshal` nor the logger call of the success log panics.  An
`*errorsx.Errno` with a code `c ≠ 0` and message `m` makes the call return
`BusinessError(c, m)`, code and message unchanged, when the logger call made before the
return does not panic; in every case nothing is sent. -/
theorem processRequest_errno (rt : Runtime) (lg lg1 lg2 : Logger) (stream : ServerStream)
    (h : handlerInfo) (ct xct methodName : String) (ctx : Context) (reqType : GoType)
    (tr1 tr2 : List Event) (argv replyv : Val) (Code : Int) (Msg : String)
    (hreq : h.reqType = some reqType)
    (hdec : decodeRequest rt lg stream reqType xct = (lg1, tr1, .next argv))
    (hval : validateRequest rt lg1 reqType argv = (lg2, tr2, .next ()))
    (hcall : rt.Call h ctx (some argv) = .returns replyv (.errno Code Msg)) :
    (Code = 0 →
      processRequest rt lg stream h ct xct methodName ctx =
        processRequest (rt.withResult (.returns replyv .nil)) lg stream h ct xct methodName
          ctx ∧
      (processRequest rt lg stream h ct xct methodName ctx).trace =
        tr1 ++ tr2 ++ [.Call h ctx (some argv), .SendMsg replyv] ∧
      (stream.SendMsg replyv = .ok () → (∀ r, rt.Marshal argv ≠ .panic r) →
        (∀ r, rt.Marshal replyv ≠ .panic r) → logPanics rt.fs lg2 = none →
        (processRequest rt lg stream h ct xct methodName ctx).out = .ret none)) ∧
    (Code ≠ 0 →
      (processRequest rt lg stream h ct xct methodName ctx).trace =
        tr1 ++ tr2 ++ [.Call h ctx (some argv)] ∧
      (∀ ev ∈ (processRequest rt lg stream h ct xct methodName ctx).trace,
        ev.isSend = false) ∧
      (logPanics rt.fs lg2 = none →
        (processRequest rt lg stream h ct xct methodName ctx).out =
          .ret (some (.BusinessError Code Msg)))) := by
  have hrun := processRequest_invoke rt lg lg1 lg2 stream h ct xct methodName ctx reqType
    tr1 tr2 argv hreq hdec hval
  have hrun0 := processRequest_invoke (rt.withResult (.returns replyv .nil)) lg lg1 lg2 stream
    h ct xct methodName ctx reqType tr1 tr2 argv hreq hdec hval
  rw [hcall] at hrun
  have htr1 := decodeRequest_trace rt lg stream reqType xct
  have htr2 := validateRequest_trace rt lg1 reqType argv
  rw [hdec] at htr1
  rw [hval] at htr2
  constructor
  · intro hc
    subst hc
    have hi : interpretResult rt lg2 (.errno 0 Msg) = (lg2, .next ()) := by
      simp [interpretResult]
    have hi0 : interpretResult (rt.withResult (.returns replyv .nil)) lg2 .nil =
        (lg2, .next ()) := rfl
    simp only [hi] at hrun
    simp only [Runtime.withResult, hi0] at hrun0
    refine ⟨hrun.trans hrun0.symm, ?_, ?_⟩
    · rw [hrun]
      simp [sendReply_trace]
    · intro hsend hA hB hlog
      rw [hrun]
      exact sendReply_ok rt lg2 stream methodName argv replyv hsend hA hB hlog
  · intro hc
    have htrace : (processRequest rt lg stream h ct xct methodName ctx).trace =
        tr1 ++ tr2 ++ [.Call h ctx (some argv)] := by
      cases hlp : logPanics rt.fs lg2 <;>
        simp only [interpretResult_errno rt lg2 Code Msg hc, hlp] at hrun <;> rw [hrun]
    refine ⟨htrace, ?_, ?_⟩
    · rw [htrace]
      intro ev hev
      simp only [List.mem_append, List.mem_singleton] at hev
      rcases hev with (hev | hev) | hev
      · exact (htr1 ev hev).2.2
      · exact (htr2 ev hev).2
      · subst hev
        rfl
    · intro hlog
      simp only [interpretResult_errno rt lg2 Code Msg hc, hlog] at hrun
      rw [hrun]

/-- C1, amended, at a sample call: the handler of `Echo.Say` returns an `Errno` with code 7
and the logger writes its line. -/
theorem processRequest_errno_witness :
    (processRequest (sampleRuntime (.returns "hi" (.errno 7 "quota"))) quietLogger
        (sampleStream "/Echo/Say" [] (.ok "hi") (.ok ())) sayInfo "application/grpc"
        "application/grpc" "Echo.Say" plainContext).out =
      .ret (some (.BusinessError 7 "quota")) :=
  ((processRequest_errno (sampleRuntime (.returns "hi" (.errno 7 "quota"))) quietLogger
    quietLogger quietLogger (sampleStream "/Echo/Say" [] (.ok "hi") (.ok ())) sayInfo
    "application/grpc" "application/grpc" "Echo.Say" plainContext Req [.RecvMsg (.typed Req)]
    [.Validate Req "hi"] "hi" "hi" 7 "quota" rfl (by decide) (by decide) rfl).2
    (by decide)).2.2 (by decide)

/-- C2, as stated, fails: the key `Echo.Missing` is not registered, the logger call made
before the not-found error is returned finds a full disk and panics, the deferred function
logs again and panics in turn, and the call ends with a panic that leaves `handler`, not
with a not-found error. -/
theorem handler_unknown_method_counterexample :
    echoServer.handlers.get? "Echo.Missing" = none ∧
    (handler echoServer ((sampleRuntime (.returns "hi" .nil)).withFs fullDiskEnv) quietLogger
      (sampleStream "/Echo/Missing" [("content-type", ["application/json"])] (.ok "hi")
        (.ok ()))).out =
      .panic "open log file failed, err:no space left on device" := by
  decide

/-- C2, amended: when the routing key resolved from the call identity is not a key of the
registry, `handler` makes no call at all, whatever the incoming metadata (no handler method
is invoked and nothing is read from or sent on the stream) and leaves the registry alone;
it returns a not-found error when the logger call made before the return does not panic. -/
theorem handler_unknown_method (g : grpcServer) (rt : Runtime) (lg : Logger)
    (stream : ServerStream) (fullMethod serviceName methodName : String)
    (hm : stream.fullMethod = some fullMethod)
    (hs : rt.ServiceMethod fullMethod = .ok (serviceName, methodName))
    (hk : g.handlers.get? (serviceName ++ "." ++ methodName) = none) :
    (handler g rt lg stream).trace = [] ∧
    (handler g rt lg stream).server = g ∧
    (logPanics rt.fs lg = none →
      (handler g rt lg stream).out =
        .ret (some (.NotFound ("[grpcserver] unknown method " ++
          (serviceName ++ "." ++ methodName))))) := by
  have hb : handlerBody g rt lg stream =
      logReturn rt lg ("[grpcserver] unknown method " ++ (serviceName ++ "." ++ methodName))
        (some (.NotFound ("[grpcserver] unknown method " ++
          (serviceName ++ "." ++ methodName)))) := by
    simp [handlerBody, hm, hs, hk]
  have ht := handler_trace g rt lg stream
  refine ⟨?_, ht.2, ?_⟩
  · rw [ht.1, hb]
    rfl
  · intro hlog
    have hb2 : handlerBody g rt lg stream =
        ⟨(Errorf rt.fs lg
            ("[grpcserver] unknown method " ++ (serviceName ++ "." ++ methodName))).1, [],
          .ret (some (.NotFound ("[grpcserver] unknown method " ++
            (serviceName ++ "." ++ methodName))))⟩ := by
      rw [hb]
      simp only [logReturn, Errorf_panics, hlog, Outcome.afterLog]
    rw [handler_of_ret g rt lg _ stream _ _ hb2]

/-- C2, amended, at a sample call: `Echo.Missing` is not registered and the logger writes
its line. -/
theorem handler_unknown_method_witness :
    (handler echoServer (sampleRuntime (.returns "hi" .nil)) quietLogger
        (sampleStream "/Echo/Missing" [("content-type", ["application/json"])] (.ok "hi")
          (.ok ()))).out =
      .ret (some (.NotFound ("[grpcserver] unknown method " ++ ("Echo" ++ "." ++ "Missing")))) :=
  (handler_unknown_method echoServer (sampleRuntime (.returns "hi" .nil)) quietLogger
    (sampleStream "/Echo/Missing" [("content-type", ["application/json"])] (.ok "hi") (.ok ()))
    "/Echo/Missing" "Echo" "Missing" rfl (by decide) (by decide)).2.2 (by decide)

/-- C3, as stated, fails: on a call to `Echo.Say` with an empty JSON payload the decoding
fails, the logger call made before the bad-request error is returned finds a full disk and
panics, the deferred function logs again and panics in turn, and the call ends with a panic
that leaves `handler`, not with a bad-request error. -/
theorem handler_decode_failure_counterexample :
    echoServer.handlers.get? "Echo.Say" = some sayInfo ∧
    jsonCodec.Unmarshal "" Req = .err "unexpected end of JSON input" ∧
    (handler echoServer ((sampleRuntime (.returns "hi" .nil)).withFs fullDiskEnv) quietLogger
      (sampleStream "/Echo/Say" [("content-type", ["application/json"])] (.ok "")
        (.ok ()))).trace = [.RecvMsg .raw, .Unmarshal "json" ""] ∧
    (handler echoServer ((sampleRuntime (.returns "hi" .nil)).withFs fullDiskEnv) quietLogger
      (sampleStream "/Echo/Say" [("content-type", ["application/json"])] (.ok "")
        (.ok ()))).out =
      .panic "open log file failed, err:no space left on device" := by
  decide

/-- C3, amended: on a unary call, when `RecvMsg` returns an error (on the typed path or on
the JSON path) or the JSON codec's `Unmarshal` returns an error, neither `Validate` nor the
handler method is invoked and nothing is sent; `handler` returns a bad-request error when
the logger call made before the return does not panic. -/
theorem handler_decode_failure (g : grpcServer) (rt : Runtime) (lg : Logger)
    (stream : ServerStream) (key : String) (h : handlerInfo) (reqType : GoType) (cd : Codec)
    (e : String)
    (hr : Routes g rt stream key h)
    (hc : h.clientStream = false) (hs : h.serverStream = false)
    (hreq : h.reqType = some reqType)
    (hcd : rt.DefaultGRPCCodecs (callContext stream).2.1 = some cd)
    (hfail : (cd.Name ≠ "json" ∧ stream.RecvMsg (.typed reqType) = .err e) ∨
      (cd.Name = "json" ∧ stream.RecvMsg .raw = .err e) ∨
      (cd.Name = "json" ∧ ∃ raw, stream.RecvMsg .raw = .ok raw ∧
        cd.Unmarshal raw reqType = .err e)) :
    (logPanics rt.fs lg = none →
      (handler g rt lg stream).out =
        .ret (some (.BadRequest ("[grpcserver] RecvMsg error: " ++ e))) ∨
      (handler g rt lg stream).out =
        .ret (some (.BadRequest ("[grpcserver] Unmarshal error: " ++ e)))) ∧
    ∀ ev ∈ (handler g rt lg stream).trace,
      ev.isValidate = false ∧ ev.isCall = false ∧ ev.isSend = false := by
  have hb := handlerBody_unary g rt lg stream key h hr hc hs
  have ht := (handler_trace g rt lg stream).1
  have hdt := decodeRequest_trace rt lg stream reqType (callContext stream).2.1
  have hd : ∃ msg tr, (msg = "[grpcserver] RecvMsg error: " ++ e ∨
        msg = "[grpcserver] Unmarshal error: " ++ e) ∧
      decodeRequest rt lg stream reqType (callContext stream).2.1 =
        ((Errorf rt.fs lg msg).1, tr,
          match logPanics rt.fs lg with
          | some r => .panic r
          | none => .ret (some (.BadRequest msg))) := by
    rcases hfail with ⟨hn, hrecv⟩ | ⟨hn, hrecv⟩ | ⟨hn, raw, hrecv, hun⟩
    · exact ⟨_, [.RecvMsg (.typed reqType)], Or.inl rfl, by
        simp [decodeRequest, hcd, hn, hrecv, Step.afterLog, Errorf_panics]⟩
    · exact ⟨_, [.RecvMsg .raw], Or.inl rfl, by
        simp [decodeRequest, hcd, hn, hrecv, Step.afterLog, Errorf_panics]⟩
    · exact ⟨_, [.RecvMsg .raw, .Unmarshal cd.Name raw], Or.inr rfl, by
        simp [decodeRequest, hcd, hn, hrecv, hun, Step.afterLog, Errorf_panics]⟩
  obtain ⟨msg, tr, hmsg, hd⟩ := hd
  rw [hd] at hdt
  constructor
  · intro hlog
    simp only [hlog] at hd
    simp only [processRequest, hreq, hd] at hb
    rw [handler_of_ret g rt lg _ stream _ _ hb]
    rcases hmsg with hmsg | hmsg
    · exact Or.inl (by rw [hmsg])
    · exact Or.inr (by rw [hmsg])
  · rw [ht, hb]
    have htrace : (processRequest rt lg stream h (callContext stream).1
        (callContext stream).2.1 key (callContext stream).2.2).trace = tr := by
      cases hlp : logPanics rt.fs lg <;> simp only [hlp] at hd <;>
        simp only [processRequest, hreq, hd]
    rw [htrace]
    exact hdt

/-- C3, amended, at a sample call: an empty JSON payload for `Echo.Say`, and the logger
writes its line. -/
theorem handler_decode_failure_witness :
    (handler echoServer (sampleRuntime (.returns "hi" .nil)) quietLogger
        (sampleStream "/Echo/Say" [("content-type", ["application/json"])] (.ok "")
          (.ok ()))).out =
        .ret (some (.BadRequest ("[grpcserver] RecvMsg error: " ++
          "unexpected end of JSON input"))) ∨
      (handler echoServer (sampleRuntime (.returns "hi" .nil)) quietLogger
        (sampleStream "/Echo/Say" [("content-type", ["application/json"])] (.ok "")
          (.ok ()))).out =
        .ret (some (.BadRequest ("[grpcserver] Unmarshal error: " ++
          "unexpected end of JSON input"))) :=
  (handler_decode_failure echoServer (sampleRuntime (.returns "hi" .nil)) quietLogger
    (sampleStream "/Echo/Say" [("content-type", ["application/json"])] (.ok "") (.ok ()))
    "Echo.Say" sayInfo Req jsonCodec "unexpected end of JSON input"
    ⟨"/Echo/Say", "Echo", "Say", rfl, by decide, by decide, by decide⟩ rfl rfl rfl
    rfl (Or.inr (Or.inr ⟨rfl, "", rfl, by decide⟩))).1 (by decide)

/-- C4, as stated, fails: on a call to `Echo.Say` with the empty text `Validate` returns an
error, the logger call made before the business error is returned finds a full disk and
panics, the deferred function logs again and panics in turn, and the call ends with a panic
that leaves `handler`, not with the business error of code -1. -/
theorem handler_validation_counterexample :
    echoServer.handlers.get? "Echo.Say" = some sayInfo ∧
    (handler echoServer ((sampleRuntime (.returns "hi" .nil)).withFs fullDiskEnv) quietLogger
      (sampleStream "/Echo/Say" [] (.ok "") (.ok ()))).trace =
      [.RecvMsg (.typed Req), .Validate Req ""] ∧
    (handler echoServer ((sampleRuntime (.returns "hi" .nil)).withFs fullDiskEnv) quietLogger
      (sampleStream "/Echo/Say" [] (.ok "") (.ok ()))).out =
      .panic "open log file failed, err:no space left on device" := by
  decide

/-- C4, amended: on a unary call whose request decoded, when `Validate` returns a non-nil
error the handler method is not invoked and nothing is sent, and `handler` returns a
business error with the code -1 when the logger call made before the return does not
panic; -1 is neither the code -2 that wraps an unrecognised handler error nor the success
code 0.  When the request type has no `Validate` method, no validation takes place and the
handler method is invoked right after the decode. -/
theorem handler_validation (g : grpcServer) (rt : Runtime) (lg lg1 : Logger)
    (stream : ServerStream) (key : String) (h : handlerInfo) (reqType : GoType)
    (tr1 : List Event) (argv : Val)
    (hr : Routes g rt stream key h)
    (hc : h.clientStream = false) (hs : h.serverStream = false)
    (hreq : h.reqType = some reqType)
    (hdec : decodeRequest rt lg stream reqType (callContext stream).2.1 =
      (lg1, tr1, .next argv)) :
    (∀ text, "Validate" ∈ reqType.methods → rt.Validate reqType argv = .err text →
      (logPanics rt.fs lg1 = none →
        (handler g rt lg stream).out =
          .ret (some (.BusinessError (-1) ("[grpcserver]  param error: " ++ text)))) ∧
      (∀ lg' t, logPanics rt.fs lg' = none →
        (interpretResult rt lg' (.error t)).2 =
          .ret (some (.BusinessError (-2) ("[grpcserver] call error: " ++ t)))) ∧
      (∀ lg' m, interpretResult rt lg' (.errno 0 m) = (lg', .next ())) ∧
      (-1 : Int) ≠ -2 ∧ (-1 : Int) ≠ 0 ∧
      ∀ ev ∈ (handler g rt lg stream).trace, ev.isCall = false ∧ ev.isSend = false) ∧
    ("Validate" ∉ reqType.methods →
      (∃ rest, (handler g rt lg stream).trace =
        tr1 ++ .Call h (callContext stream).2.2 (some argv) :: rest) ∧
      ∀ ev ∈ (handler g rt lg stream).trace, ev.isValidate = false) := by
  have hb := handlerBody_unary g rt lg stream key h hr hc hs
  have ht := (handler_trace g rt lg stream).1
  have htr1 := decodeRequest_trace rt lg stream reqType (callContext stream).2.1
  rw [hdec] at htr1
  constructor
  · intro text hmem hv
    have hval : validateRequest rt lg1 reqType argv =
        ((Errorf rt.fs lg1 ("[grpcserver]  param error: " ++ text)).1,
          [.Validate reqType argv],
          match logPanics rt.fs lg1 with
          | some r => .panic r
          | none =>
            .ret (some (.BusinessError (-1) ("[grpcserver]  param error: " ++ text)))) := by
      simp [validateRequest, hmem, hv, Step.afterLog, Errorf_panics]
    refine ⟨?_, ?_, ?_, by decide, by decide, ?_⟩
    · intro hlog
      simp only [hlog] at hval
      simp only [processRequest, hreq, hdec, hval] at hb
      rw [handler_of_ret g rt lg _ stream _ _ hb]
    · intro lg' t hlog
      rw [interpretResult_error, hlog]
    · intro lg' m
      simp [interpretResult]
    · have htrace : (processRequest rt lg stream h (callContext stream).1
          (callContext stream).2.1 key (callContext stream).2.2).trace =
          tr1 ++ [.Validate reqType argv] := by
        cases hlp : logPanics rt.fs lg1 <;> simp only [hlp] at hval <;>
          simp only [processRequest, hreq, hdec, hval]
      rw [ht, hb, htrace]
      intro ev hev
      simp only [List.mem_append, List.mem_singleton] at hev
      rcases hev with hev | hev
      · exact (htr1 ev hev).2
      · subst hev
        exact ⟨rfl, rfl⟩
  · intro hmem
    have hval : validateRequest rt lg1 reqType argv = (lg1, [], .next ()) := by
      simp [validateRequest, hmem]
    have hrun := processRequest_invoke rt lg lg1 lg1 stream h (callContext stream).1
      (callContext stream).2.1 key (callContext stream).2.2 reqType tr1 [] argv hreq hdec hval
    rw [← hb] at hrun
    have key2 : ∃ rest, (handlerBody g rt lg stream).trace =
        tr1 ++ .Call h (callContext stream).2.2 (some argv) :: rest ∧
        ∀ ev ∈ rest, ev.isValidate = false := by
      rw [hrun]
      cases hcall : rt.Call h (callContext stream).2.2 (some argv) with
      | panics r => exact ⟨[], by simp, by simp⟩
      | returns replyv out0 =>
        rcases hi : interpretResult rt lg1 out0 with ⟨lg3, s⟩
        cases s with
        | ret e => exact ⟨[], by simp [hi], by simp⟩
        | panic r => exact ⟨[], by simp [hi], by simp⟩
        | next u =>
          refine ⟨[.SendMsg replyv], by simp [hi, sendReply_trace], ?_⟩
          simp [Event.isValidate]
    obtain ⟨rest, hbody, hrest⟩ := key2
    rw [ht]
    refine ⟨⟨rest, hbody⟩, ?_⟩
    rw [hbody]
    intro ev hev
    simp only [List.mem_append, List.mem_cons] at hev
    rcases hev with hev | hev | hev
    · exact (htr1 ev hev).1
    · subst hev
      rfl
    · exact hrest ev hev

/-- C4, amended, at a sample call: `Echo.Say` with the empty text, which `Validate` rejects,
and the logger writes its line. -/
theorem handler_validation_witness :
    (handler echoServer (sampleRuntime (.returns "hi" .nil)) quietLogger
      (sampleStream "/Echo/Say" [] (.ok "") (.ok ()))).out =
      .ret (some (.BusinessError (-1) ("[grpcserver]  param error: " ++ "empty text"))) :=
  ((handler_validation echoServer (sampleRuntime (.returns "hi" .nil)) quietLogger quietLogger
    (sampleStream "/Echo/Say" [] (.ok "") (.ok ())) "Echo.Say" sayInfo Req
    [.RecvMsg (.typed Req)] ""
    ⟨"/Echo/Say", "Echo", "Say", rfl, by decide, by decide, by decide⟩ rfl rfl rfl
    (by decide)).1 "empty text" (by decide) (by decide)).1 (by decide)

/-- C5, as stated, fails: the handler of `Echo.Say` panics with "boom", the deferred
function recovers it and calls the logger, which finds a full disk and panics, and that
panic leaves `handler`: the call does not end with a bad-request error. -/
theorem handler_recovers_panic_counterexample :
    (handlerBody echoServer ((sampleRuntime (.panics "boom")).withFs fullDiskEnv) quietLogger
      (sampleStream "/Echo/Say" [] (.ok "hi") (.ok ()))).out = .panic "boom" ∧
    (handler echoServer ((sampleRuntime (.panics "boom")).withFs fullDiskEnv) quietLogger
      (sampleStream "/Echo/Say" [] (.ok "hi") (.ok ()))).out =
      .panic "open log file failed, err:no space left on device" := by
  decide

/-- C5, amended: when a phase of a call panics with a value `r` and the two logger calls of
the deferred function return, the panic does not leave `handler`: the result is a
bad-request error whose message contains `r`, whatever was about to be returned; when one
of the two logger calls panics, that panic leaves `handler`.  In every case the deferred
function makes no further call and the registry is the one the call started with.  The
phases are spelled out: resolving the identity, decoding, validating, invoking,
interpreting the result and sending on the unary path, and binding the stream, the first
read and invoking on the stream path. -/
theorem handler_recovers_panic (g : grpcServer) (rt : Runtime) (lg : Logger)
    (stream : ServerStream) :
    (handler g rt lg stream).server = g ∧
    (∀ r, ∃ pre post, panicMessage r = pre ++ r ++ post) ∧
    (∀ lg1 tr r, handlerBody g rt lg stream = ⟨lg1, tr, .panic r⟩ →
      (handler g rt lg stream).trace = tr ∧
      (RecoverLogs rt lg1 r →
        (handler g rt lg stream).out = .ret (some (.BadRequest (panicMessage r)))) ∧
      (¬ RecoverLogs rt lg1 r → ∃ r', (handler g rt lg stream).out = .panic r')) ∧
    (∀ fullMethod r, stream.fullMethod = some fullMethod →
      rt.ServiceMethod fullMethod = .panic r → RecoverLogs rt lg r →
      (handler g rt lg stream).out = .ret (some (.BadRequest (panicMessage r)))) ∧
    (∀ key h reqType, Routes g rt stream key h → h.clientStream = false →
      h.serverStream = false → h.reqType = some reqType →
      (∀ lg1 tr1 r,
        decodeRequest rt lg stream reqType (callContext stream).2.1 = (lg1, tr1, .panic r) →
        RecoverLogs rt lg1 r →
        (handler g rt lg stream).out = .ret (some (.BadRequest (panicMessage r)))) ∧
      (∀ lg1 tr1 argv lg2 tr2 r,
        decodeRequest rt lg stream reqType (callContext stream).2.1 = (lg1, tr1, .next argv) →
        validateRequest rt lg1 reqType argv = (lg2, tr2, .panic r) →
        RecoverLogs rt lg2 r →
        (handler g rt lg stream).out = .ret (some (.BadRequest (panicMessage r)))) ∧
      (∀ lg1 tr1 argv lg2 tr2 r,
        decodeRequest rt lg stream reqType (callContext stream).2.1 = (lg1, tr1, .next argv) →
        validateRequest rt lg1 reqType argv = (lg2, tr2, .next ()) →
        rt.Call h (callContext stream).2.2 (some argv) = .panics r →
        RecoverLogs rt lg2 r →
        (handler g rt lg stream).out = .ret (some (.BadRequest (panicMessage r)))) ∧
      (∀ lg1 tr1 argv lg2 tr2 replyv out0 lg3 r,
        decodeRequest rt lg stream reqType (callContext stream).2.1 = (lg1, tr1, .next argv) →
        validateRequest rt lg1 reqType argv = (lg2, tr2, .next ()) →
        rt.Call h (callContext stream).2.2 (some argv) = .returns replyv out0 →
        interpretResult rt lg2 out0 = (lg3, .panic r) →
        RecoverLogs rt lg3 r →
        (handler g rt lg stream).out = .ret (some (.BadRequest (panicMessage r)))) ∧
      (∀ lg1 tr1 argv lg2 tr2 replyv out0 lg3 r,
        decodeRequest rt lg stream reqType (callContext stream).2.1 = (lg1, tr1, .next argv) →
        validateRequest rt lg1 reqType argv = (lg2, tr2, .next ()) →
        rt.Call h (callContext stream).2.2 (some argv) = .returns replyv out0 →
        interpretResult rt lg2 out0 = (lg3, .next ()) →
        (sendReply rt lg3 stream key argv replyv).2.2 = .panic r →
        RecoverLogs rt (sendReply rt lg3 stream key argv replyv).1 r →
        (handler g rt lg stream).out = .ret (some (.BadRequest (panicMessage r))))) ∧
    (∀ key h, Routes g rt stream key h → (h.clientStream = true ∨ h.serverStream = true) →
      (∀ tr0 r, bindStream rt h.respType = (tr0, .panic r) → RecoverLogs rt lg r →
        (handler g rt lg stream).out = .ret (some (.BadRequest (panicMessage r)))) ∧
      (∀ tr0 reqType r, bindStream rt h.respType = (tr0, .next ()) →
        h.reqType = some reqType → stream.RecvMsg (.typed reqType) = .panic r →
        RecoverLogs rt lg r →
        (handler g rt lg stream).out = .ret (some (.BadRequest (panicMessage r)))) ∧
      (∀ tr0 reqType argv r, bindStream rt h.respType = (tr0, .next ()) →
        h.reqType = some reqType → stream.RecvMsg (.typed reqType) = .ok argv →
        rt.Call h (callContext stream).2.2 (some argv) = .panics r →
        RecoverLogs rt lg r →
        (handler g rt lg stream).out = .ret (some (.BadRequest (panicMessage r)))) ∧
      (∀ tr0 r, bindStream rt h.respType = (tr0, .next ()) → h.reqType = none →
        rt.Call h (callContext stream).2.2 none = .panics r →
        RecoverLogs rt lg r →
        (handler g rt lg stream).out = .ret (some (.BadRequest (panicMessage r))))) := by
  have hrec : ∀ lg1 tr r, handlerBody g rt lg stream = ⟨lg1, tr, .panic r⟩ →
      RecoverLogs rt lg1 r →
      (handler g rt lg stream).out = .ret (some (.BadRequest (panicMessage r))) := by
    intro lg1 tr r hb hl
    rw [handler_of_panic g rt lg lg1 stream tr r hb]
    exact recovered_of_logs g rt lg1 tr r hl
  refine ⟨(handler_trace g rt lg stream).2, ?_, ?_, ?_, ?_, ?_⟩
  · intro r
    exact ⟨"[grpcserver] panic recovered:", " ", rfl⟩
  · intro lg1 tr r hb
    refine ⟨?_, hrec lg1 tr r hb, ?_⟩
    · rw [handler_of_panic g rt lg lg1 stream tr r hb]
      exact (recovered_trace g rt lg1 tr r).1
    · intro hl
      rw [handler_of_panic g rt lg lg1 stream tr r hb]
      exact recovered_of_no_logs g rt lg1 tr r hl
  · intro fm r hfm hsm hl
    refine hrec lg [] r ?_ hl
    simp [handlerBody, hfm, hsm]
  · intro key h reqType hr hc hs hreq
    have hb := handlerBody_unary g rt lg stream key h hr hc hs
    refine ⟨?_, ?_, ?_, ?_, ?_⟩
    · intro lg1 tr1 r hdec hl
      refine hrec lg1 tr1 r ?_ hl
      rw [hb]
      simp only [processRequest, hreq, hdec]
    · intro lg1 tr1 argv lg2 tr2 r hdec hval hl
      refine hrec lg2 (tr1 ++ tr2) r ?_ hl
      rw [hb]
      simp only [processRequest, hreq, hdec, hval]
    · intro lg1 tr1 argv lg2 tr2 r hdec hval hcall hl
      refine hrec lg2 (tr1 ++ tr2 ++ [.Call h (callContext stream).2.2 (some argv)]) r ?_ hl
      rw [hb, processRequest_invoke rt lg lg1 lg2 stream h _ _ key _ reqType tr1 tr2 argv hreq
        hdec hval, hcall]
    · intro lg1 tr1 argv lg2 tr2 replyv out0 lg3 r hdec hval hcall hint hl
      refine hrec lg3 (tr1 ++ tr2 ++ [.Call h (callContext stream).2.2 (some argv)]) r ?_ hl
      rw [hb, processRequest_invoke rt lg lg1 lg2 stream h _ _ key _ reqType tr1 tr2 argv hreq
        hdec hval, hcall]
      simp only [hint]
    · intro lg1 tr1 argv lg2 tr2 replyv out0 lg3 r hdec hval hcall hint hsend hl
      refine hrec (sendReply rt lg3 stream key argv replyv).1
        (tr1 ++ tr2 ++ [.Call h (callContext stream).2.2 (some argv)] ++
          (sendReply rt lg3 stream key argv replyv).2.1) r ?_ hl
      rw [hb, processRequest_invoke rt lg lg1 lg2 stream h _ _ key _ reqType tr1 tr2 argv hreq
        hdec hval, hcall]
      simp only [hint, hsend]
  · intro key h hr hflag
    have hb := handlerBody_stream g rt lg stream key h hr hflag
    refine ⟨?_, ?_, ?_, ?_⟩
    · intro tr0 r hbind hl
      refine hrec lg tr0 r ?_ hl
      rw [hb]
      simp only [processStream, hbind]
    · intro tr0 reqType r hbind hreq hrecv hl
      refine hrec lg (tr0 ++ [.RecvMsg (.typed reqType)]) r ?_ hl
      rw [hb]
      simp only [processStream, hbind, hreq, hrecv]
    · intro tr0 reqType argv r hbind hreq hrecv hcall hl
      refine hrec lg (tr0 ++ [.RecvMsg (.typed reqType),
        .Call h (callContext stream).2.2 (some argv)]) r ?_ hl
      rw [hb]
      simp only [processStream, hbind, hreq, hrecv, hcall]
    · intro tr0 r hbind hreq hcall hl
      refine hrec lg (tr0 ++ [.Call h (callContext stream).2.2 none]) r ?_ hl
      rw [hb]
      simp only [processStream, hbind, hreq, hcall]

/-- C5, amended, at a sample call: the handler of `Echo.Say` panics with "boom" and the
logger writes its two lines. -/
theorem handler_recovers_panic_witness :
    (handler echoServer (sampleRuntime (.panics "boom")) quietLogger
        (sampleStream "/Echo/Say" [] (.ok "hi") (.ok ()))).out =
      .ret (some (.BadRequest (panicMessage "boom"))) :=
  ((handler_recovers_panic echoServer (sampleRuntime (.panics "boom")) quietLogger
    (sampleStream "/Echo/Say" [] (.ok "hi") (.ok ()))).2.2.1 quietLogger
    [.RecvMsg (.typed Req), .Validate Req "hi", .Call sayInfo plainContext (some "hi")]
    "boom" (by decide)).2.1 ⟨by decide, by decide⟩

/-- C6, as stated, fails: every public method of `Echo` has 3 or 4 parameters, and yet
`Register` on a full disk registers `Echo.Ping` only: the logger call that follows the
first registration panics, the call ends with that panic, and `Echo.Say` is left without an
entry. -/
theorem RegisterWithUrl_registrations_counterexample :
    (∀ m ∈ Echo.methods, m.NumIn = 3 ∨ m.NumIn = 4) ∧
    Say ∈ Echo.methods ∧
    (RegisterWithUrl NewServer fullDiskEnv quietLogger Echo none).2.2 =
      some "open log file failed, err:no space left on device" ∧
    (RegisterWithUrl NewServer fullDiskEnv quietLogger Echo none).1.handlers.get? "Echo.Ping" =
      some pingInfo ∧
    (RegisterWithUrl NewServer fullDiskEnv quietLogger Echo none).1.handlers.get? "Echo.Say" =
      none := by
  decide

/-- C6, amended: for a handler object whose public methods all have 3 or 4 parameters, a
call of `RegisterWithUrl` that returns (no logger call of the loop panics) leaves every key
with the last registration the specification lists for it, or with its previous descriptor
when there is none: without an endpoint map every method `M` is registered under `T.M`
with both stream flags false; with an endpoint map only the methods named in it are
registered, under the endpoint's URL and, when not empty, under the endpoint's method alias,
both with the same descriptor carrying the endpoint's stream flags. -/
theorem RegisterWithUrl_registrations (g : grpcServer) (env : LogEnv) (lg : Logger)
    (o : HandlerObject) (apiEndpointMap : Option (GoMap ApiEndpoint))
    (hshape : ∀ m ∈ o.methods, m.NumIn = 3 ∨ m.NumIn = 4)
    (hret : (RegisterWithUrl g env lg o apiEndpointMap).2.2 = none) :
    (∀ k, (RegisterWithUrl g env lg o apiEndpointMap).1.handlers.get? k =
      match lastRegistration (specRegistrations o apiEndpointMap o.methods) k with
      | some h => some h
      | none => g.handlers.get? k) ∧
    (∀ k, (∀ p ∈ specRegistrations o apiEndpointMap o.methods, p.1 ≠ k) →
      (RegisterWithUrl g env lg o apiEndpointMap).1.handlers.get? k = g.handlers.get? k) ∧
    (apiEndpointMap = none → ∀ m ∈ o.methods, ∃ h,
      (RegisterWithUrl g env lg o apiEndpointMap).1.handlers.get?
        (o.typeName ++ "." ++ m.Name) = some h ∧
      h.clientStream = false ∧ h.serverStream = false ∧ h.handler = o ∧
      h.method.Name = m.Name ∧ h.method ∈ o.methods) := by
  have hloop := registerLoop_spec env o apiEndpointMap o.methods g.handlers lg hshape hret
  have hget : ∀ k, (RegisterWithUrl g env lg o apiEndpointMap).1.handlers.get? k =
      match lastRegistration (specRegistrations o apiEndpointMap o.methods) k with
      | some h => some h
      | none => g.handlers.get? k := by
    intro k
    simp only [RegisterWithUrl, hloop, GoMap.get?_append, lastRegistration]
    cases GoMap.get? (specRegistrations o apiEndpointMap o.methods).reverse k <;> rfl
  refine ⟨hget, ?_, ?_⟩
  · intro k hk
    rw [hget k]
    have hnone : lastRegistration (specRegistrations o apiEndpointMap o.methods) k = none := by
      apply GoMap.get?_eq_none
      intro p hp
      exact hk p (List.mem_reverse.mp hp)
    rw [hnone]
  · intro hnil m hm
    subst hnil
    have hin := specRegistrations_nil_key o o.methods m hm
    obtain ⟨h, hh⟩ := GoMap.get?_of_mem (specRegistrations o none o.methods).reverse _ _
      (List.mem_reverse.mpr hin)
    have hmem := List.mem_reverse.mp (GoMap.mem_of_get? _ _ _ hh)
    obtain ⟨m', hm', hkey, hdesc⟩ := specRegistrations_nil_mem o o.methods _ _ hmem
    have hname : m.Name = m'.Name := String.append_left_cancel _ _ _ hkey
    refine ⟨h, ?_, ?_, ?_, ?_, ?_, ?_⟩
    · rw [hget]
      simp only [lastRegistration, hh]
    · rw [hdesc]; rfl
    · rw [hdesc]; rfl
    · rw [hdesc]; rfl
    · rw [hdesc]; exact hname.symm
    · rw [hdesc]; exact hm'

/-- C6, amended, at the sample handler and `sampleEndpoints`, with a logger that writes
its lines: `Say` is found under its URL and under its alias, `Watch` under its URL as a
server stream, and `Ping` and `Plain` nowhere. -/
theorem RegisterWithUrl_registrations_witness :
    (RegisterWithUrl NewServer quietEnv quietLogger Echo (some sampleEndpoints)).2.2 = none ∧
    (∀ k, (RegisterWithUrl NewServer quietEnv quietLogger Echo
        (some sampleEndpoints)).1.handlers.get? k =
      match lastRegistration (specRegistrations Echo (some sampleEndpoints) Echo.methods) k with
      | some h => some h
      | none => NewServer.handlers.get? k) :=
  ⟨by decide,
    (RegisterWithUrl_registrations NewServer quietEnv quietLogger Echo (some sampleEndpoints)
      (by decide) (by decide)).1⟩

/-- C7: the method `Echo.Ping(ctx, *Resp)` has 3 parameters, so `Register` stores it
without a request type and with both stream flags false; a call to it is routed to
`processRequest`, which panics on the missing request type before the method is invoked:
the call makes no invocation at all, whatever the logger finds, and ends with the
bad-request error of the recovered panic. -/
theorem handler_no_request_type :
    echoServer.handlers.get? "Echo.Ping" = some pingInfo ∧
    pingInfo.reqType = none ∧ pingInfo.clientStream = false ∧
    pingInfo.serverStream = false ∧
    handlerBody echoServer (sampleRuntime (.returns "pong" .nil)) quietLogger
        (sampleStream "/Echo/Ping" [] (.ok "") (.ok ())) =
      processRequest (sampleRuntime (.returns "pong" .nil)) quietLogger
        (sampleStream "/Echo/Ping" [] (.ok "") (.ok ())) pingInfo "application/grpc"
        "application/grpc" "Echo.Ping" plainContext ∧
    (handler echoServer (sampleRuntime (.returns "pong" .nil)) quietLogger
        (sampleStream "/Echo/Ping" [] (.ok "") (.ok ()))).server = echoServer ∧
    (handler echoServer (sampleRuntime (.returns "pong" .nil)) quietLogger
        (sampleStream "/Echo/Ping" [] (.ok "") (.ok ()))).trace = [] ∧
    (handler echoServer (sampleRuntime (.returns "pong" .nil)) quietLogger
        (sampleStream "/Echo/Ping" [] (.ok "") (.ok ()))).out =
      .ret (some (.BadRequest (panicMessage nilDereference))) ∧
    (handler echoServer ((sampleRuntime (.returns "pong" .nil)).withFs fullDiskEnv) quietLogger
        (sampleStream "/Echo/Ping" [] (.ok "") (.ok ()))).trace = [] := by
  decide

/-- C8, as stated, fails: with `x-content-type: application/json` and
`content-type: application/grpc`, the payload content type `ct` is `application/grpc`,
whose codec is the protobuf one, and yet the request is unmarshalled with the JSON codec,
the one selected by `xct`. -/
theorem decode_codec_counterexample :
    (callContext (sampleStream "/Echo/Say" mixedHeaders (.ok "hi") (.ok ()))).1 =
      "application/grpc" ∧
    (callContext (sampleStream "/Echo/Say" mixedHeaders (.ok "hi") (.ok ()))).2.1 =
      "application/json" ∧
    ∃ n raw,
      Event.Unmarshal n raw ∈
        (handler echoServer (sampleRuntime (.returns "hi" .nil)) quietLogger
          (sampleStream "/Echo/Say" mixedHeaders (.ok "hi") (.ok ()))).trace ∧
      Option.map Codec.Name
        ((sampleRuntime (.returns "hi" .nil)).DefaultGRPCCodecs
          (callContext (sampleStream "/Echo/Say" mixedHeaders (.ok "hi") (.ok ()))).1) ≠
        some n := by
  refine ⟨by decide, by decide, "json", "hi", by decide, by decide⟩

/-- C8, amended: `xct` is the `x-content-type` header if present, else `content-type` if
present, else `application/grpc`, and `ct` is `content-type` if present, else `xct`; the
unary invoker does not read `ct`, and the codec that decodes the request is the one
selected by `xct`: when its name is not `json` the request is received into the typed
message and nothing is unmarshalled; when it is `json` a raw message is received and, if
that succeeded, unmarshalled with this codec. -/
theorem content_types_and_codec (rt : Runtime) (lg : Logger) (stream : ServerStream)
    (h : handlerInfo) (ct xct methodName : String) (ctx : Context) :
    ((callContext stream).2.1 =
      match (joinMD (stream.incoming.getD [])).get? "x-content-type" with
      | some v => v
      | none =>
        match (joinMD (stream.incoming.getD [])).get? "content-type" with
        | some v => v
        | none => "application/grpc") ∧
    ((callContext stream).1 =
      match (joinMD (stream.incoming.getD [])).get? "content-type" with
      | some v => v
      | none => (callContext stream).2.1) ∧
    (∀ ct', processRequest rt lg stream h ct xct methodName ctx =
      processRequest rt lg stream h ct' xct methodName ctx) ∧
    (∀ reqType cd, h.reqType = some reqType → rt.DefaultGRPCCodecs xct = some cd →
      (processRequest rt lg stream h ct xct methodName ctx).trace.filter Event.isDecode =
        if cd.Name ≠ "json" then [.RecvMsg (.typed reqType)]
        else
          match stream.RecvMsg .raw with
          | .ok raw => [.RecvMsg .raw, .Unmarshal cd.Name raw]
          | _ => [.RecvMsg .raw]) := by
  refine ⟨?_, ?_, fun _ => rfl, ?_⟩
  · cases hinc : stream.incoming <;>
      simp only [callContext, contentTypes, hinc, Option.getD, DefaultContentType]
  · cases hinc : stream.incoming <;>
      simp only [callContext, contentTypes, hinc, Option.getD, DefaultContentType]
  · intro reqType cd hreq hcd
    rw [processRequest_decode_events rt lg stream h ct xct methodName ctx reqType hreq]
    unfold decodeRequest
    rw [hcd]
    by_cases hn : cd.Name = "json"
    · simp only [hn, ne_eq, not_true_eq_false, if_false]
      cases hrecv : stream.RecvMsg .raw with
      | err e => rfl
      | panic r => rfl
      | ok raw =>
        simp only
        cases cd.Unmarshal raw reqType <;> rfl
    · simp only [ne_eq, hn, not_false_eq_true, if_true]
      cases stream.RecvMsg (.typed reqType) <;> rfl

/-- C9: in `processStream`, once the stream is bound: when the descriptor has a request type
and the first `RecvMsg` fails with `e`, the call returns `e` itself and the handler method
is not invoked; when there is no request type, or the first read succeeded, the handler
method is invoked exactly once, with the request read if any, and the call returns nil when
the method returns nil and the method's own error value when it returns a non-nil error,
an `*errorsx.Errno` with code 0 included. -/
theorem processStream_result (rt : Runtime) (stream : ServerStream) (h : handlerInfo)
    (ct xct methodName : String) (ctx : Context) (tr0 : List Event)
    (hbind : bindStream rt h.respType = (tr0, .next ())) :
    (∀ reqType e, h.reqType = some reqType → stream.RecvMsg (.typed reqType) = .err e →
      processStream rt stream h ct xct methodName ctx =
        ⟨tr0 ++ [.RecvMsg (.typed reqType)], .ret (some (.recv e))⟩ ∧
      (processStream rt stream h ct xct methodName ctx).trace.countP Event.isCall = 0) ∧
    (∀ arg, ((h.reqType = none ∧ arg = none) ∨
        ∃ reqType argv, h.reqType = some reqType ∧
          stream.RecvMsg (.typed reqType) = .ok argv ∧ arg = some argv) →
      (processStream rt stream h ct xct methodName ctx).trace.countP Event.isCall = 1 ∧
      Event.Call h ctx arg ∈ (processStream rt stream h ct xct methodName ctx).trace ∧
      (∀ replyv, rt.Call h ctx arg = .returns replyv .nil →
        (processStream rt stream h ct xct methodName ctx).out = .ret none) ∧
      (∀ replyv Code Msg, rt.Call h ctx arg = .returns replyv (.errno Code Msg) →
        (processStream rt stream h ct xct methodName ctx).out =
          .ret (some (.handlerErr (.errno Code Msg)))) ∧
      (∀ replyv v, rt.Call h ctx arg = .returns replyv v → v ≠ .nil →
        (∀ text, v ≠ .nonError text) →
        (processStream rt stream h ct xct methodName ctx).out =
          .ret (some (.handlerErr v)))) := by
  have h0 := bindStream_trace rt h.respType tr0 _ hbind
  have hres : ∀ v, v ≠ RetVal.nil → (∀ text, v ≠ .nonError text) →
      streamResult v = some (.handlerErr v) := by
    intro v h1 h2
    cases v with
    | nil => exact absurd rfl h1
    | nonError t => exact absurd rfl (h2 t)
    | errno c m => rfl
    | errnoNil => rfl
    | error t => rfl
  constructor
  · intro reqType e hreq hrecv
    simp [processStream, hbind, hreq, hrecv, List.countP_append, h0, Event.isCall]
  · intro arg harg
    rcases harg with ⟨hreq, harg⟩ | ⟨reqType, argv, hreq, hrecv, harg⟩
    · subst harg
      have hrun : processStream rt stream h ct xct methodName ctx =
          ⟨tr0 ++ [.Call h ctx none],
            match rt.Call h ctx none with
            | .panics r => .panic r
            | .returns _ out0 => .ret (streamResult out0)⟩ := by
        simp only [processStream, hbind, hreq]
        cases rt.Call h ctx none <;> rfl
      rw [hrun]
      refine ⟨by simp [List.countP_append, h0, Event.isCall], by simp, ?_, ?_, ?_⟩
      · intro replyv hcall
        simp [hcall, streamResult]
      · intro replyv c m hcall
        simp [hcall, streamResult]
      · intro replyv v hcall h1 h2
        simp [hcall, hres v h1 h2]
    · subst harg
      have hrun : processStream rt stream h ct xct methodName ctx =
          ⟨tr0 ++ [.RecvMsg (.typed reqType), .Call h ctx (some argv)],
            match rt.Call h ctx (some argv) with
            | .panics r => .panic r
            | .returns _ out0 => .ret (streamResult out0)⟩ := by
        simp only [processStream, hbind, hreq, hrecv]
        cases rt.Call h ctx (some argv) <;> rfl
      rw [hrun]
      refine ⟨by simp [List.countP_append, h0, Event.isCall, List.countP_cons], by simp,
        ?_, ?_, ?_⟩
      · intro replyv hcall
        simp [hcall, streamResult]
      · intro replyv c m hcall
        simp [hcall, streamResult]
      · intro replyv v hcall h1 h2
        simp [hcall, hres v h1 h2]

/-- C9 at a sample call: the server stream `Echo.Watch` whose first read fails. -/
theorem processStream_result_witness :
    processStream (sampleRuntime (.returns "" (.errno 0 "done")))
        (sampleStream "/Echo/Watch" [] (.err "EOF") (.ok ())) watchInfo "application/grpc"
        "application/grpc" "Echo.Watch" plainContext =
      ⟨[.SetStream StreamResp] ++ [.RecvMsg (.typed Req)], .ret (some (.recv "EOF"))⟩ :=
  ((processStream_result (sampleRuntime (.returns "" (.errno 0 "done")))
    (sampleStream "/Echo/Watch" [] (.err "EOF") (.ok ())) watchInfo "application/grpc"
    "application/grpc" "Echo.Watch" plainContext [.SetStream StreamResp] (by decide)).1
    Req "EOF" rfl rfl).1

/-- C10, as stated, fails, in two ways.  On a call to `Echo.Say` whose handler returned
nil and whose `SendMsg` fails, the business error returned has the code -2, the very code
under which an unrecognised handler error is wrapped.  And when the logger call made before
that return finds a full disk, the call ends with a panic that leaves `handler`, not with a
business error. -/
theorem send_failure_code_counterexample :
    (handler echoServer (sampleRuntime (.returns "hi" .nil)) quietLogger
      (sampleStream "/Echo/Say" [] (.ok "hi") (.err "broken pipe"))).out =
      .ret (some (.BusinessError (-2) "[grpcserver] send error: broken pipe")) ∧
    (handler echoServer (sampleRuntime (.returns "hi" (.error "broken pipe"))) quietLogger
      (sampleStream "/Echo/Say" [] (.ok "hi") (.ok ()))).out =
      .ret (some (.BusinessError (-2) "[grpcserver] call error: broken pipe")) ∧
    (handler echoServer ((sampleRuntime (.returns "hi" .nil)).withFs fullDiskEnv) quietLogger
      (sampleStream "/Echo/Say" [] (.ok "hi") (.err "broken pipe"))).out =
      .panic "open log file failed, err:no space left on device" := by
  decide

/-- C10, amended: on a unary call whose handler succeeded (a nil result, or an
`*errorsx.Errno` with code 0) and whose `SendMsg` fails with `e`, the reply was handed to
`SendMsg` once, and `handler` returns a business error, not nil, when the logger call made
before the return does not panic: it has the code -2, which is also the code that wraps an
unrecognised handler error and is not the validation code -1, and its message is the send
error text, where that of a wrapped handler error is the call error text. -/
theorem handler_send_failure (g : grpcServer) (rt : Runtime) (lg lg1 lg2 : Logger)
    (stream : ServerStream) (key : String) (h : handlerInfo) (reqType : GoType)
    (tr1 tr2 : List Event) (argv replyv : Val) (out0 : RetVal) (e : String)
    (hr : Routes g rt stream key h)
    (hc : h.clientStream = false) (hs : h.serverStream = false)
    (hreq : h.reqType = some reqType)
    (hdec : decodeRequest rt lg stream reqType (callContext stream).2.1 =
      (lg1, tr1, .next argv))
    (hval : validateRequest rt lg1 reqType argv = (lg2, tr2, .next ()))
    (hcall : rt.Call h (callContext stream).2.2 (some argv) = .returns replyv out0)
    (hok : out0 = .nil ∨ ∃ m, out0 = .errno 0 m)
    (hsend : stream.SendMsg replyv = .err e) :
    (handler g rt lg stream).trace =
      tr1 ++ tr2 ++ [.Call h (callContext stream).2.2 (some argv), .SendMsg replyv] ∧
    (logPanics rt.fs lg2 = none →
      (handler g rt lg stream).out =
        .ret (some (.BusinessError (-2) ("[grpcserver] send error: " ++ e)))) ∧
    (∀ lg' t, logPanics rt.fs lg' = none →
      (interpretResult rt lg' (.error t)).2 =
        .ret (some (.BusinessError (-2) ("[grpcserver] call error: " ++ t)))) ∧
    (-2 : Int) ≠ -1 := by
  have hint : interpretResult rt lg2 out0 = (lg2, .next ()) := by
    rcases hok with hnil | ⟨m, hm⟩
    · rw [hnil]; rfl
    · rw [hm]; simp [interpretResult]
  have hb : handlerBody g rt lg stream =
      ⟨(sendReply rt lg2 stream key argv replyv).1,
        tr1 ++ tr2 ++ [.Call h (callContext stream).2.2 (some argv)] ++
          (sendReply rt lg2 stream key argv replyv).2.1,
        (sendReply rt lg2 stream key argv replyv).2.2⟩ := by
    rw [handlerBody_unary g rt lg stream key h hr hc hs,
      processRequest_invoke rt lg lg1 lg2 stream h _ _ key _ reqType tr1 tr2 argv hreq hdec
        hval, hcall]
    simp only [hint]
  refine ⟨?_, ?_, ?_, by decide⟩
  · rw [(handler_trace g rt lg stream).1, hb]
    simp [sendReply_trace]
  · intro hlog
    have hout := sendReply_err rt lg2 stream key argv replyv e hsend
    rw [hlog] at hout
    simp only at hout
    rw [hout] at hb
    rw [handler_of_ret g rt lg _ stream _ _ hb]
  · intro lg' t hlog
    rw [interpretResult_error, hlog]

/-- C10, amended, at a sample call: `Echo.Say` answers with an `Errno` of code 0, the send
fails and the logger writes its line. -/
theorem handler_send_failure_witness :
    (handler echoServer (sampleRuntime (.returns "hi" (.errno 0 "ok"))) quietLogger
        (sampleStream "/Echo/Say" [] (.ok "hi") (.err "broken pipe"))).out =
      .ret (some (.BusinessError (-2) ("[grpcserver] send error: " ++ "broken pipe"))) :=
  (handler_send_failure echoServer (sampleRuntime (.returns "hi" (.errno 0 "ok"))) quietLogger
    quietLogger quietLogger
    (sampleStream "/Echo/Say" [] (.ok "hi") (.err "broken pipe")) "Echo.Say" sayInfo Req
    [.RecvMsg (.typed Req)] [.Validate Req "hi"] "hi" "hi" (.errno 0 "ok") "broken pipe"
    ⟨"/Echo/Say", "Echo", "Say", rfl, by decide, by decide, by decide⟩ rfl rfl rfl
    (by decide) (by decide) rfl (Or.inr ⟨"ok", rfl⟩) rfl).2.1 (by decide)

/-- C11: the `timeout` value `9223372036854775808` (`2^63`) is not empty and parses as an
unsigned 64-bit integer, so a timeout is installed; the conversion to `time.Duration` wraps
it, and the handler of `Echo.Say` is invoked with a context whose timeout is
`-9223372036854775808` nanoseconds, a negative duration, not the `2^63` nanoseconds asked
for.  The `timeout` key is gone from the metadata of that context. -/
theorem timeout_duration_overflow :
    ParseUint "9223372036854775808" = some 9223372036854775808 ∧
    timeoutOf "9223372036854775808" = some (-9223372036854775808) ∧
    (callContext (sampleStream "/Echo/Say" overflowHeaders (.ok "hi") (.ok ()))).2.2 =
      overflowContext ∧
    overflowContext.md.get? "timeout" = none ∧
    (handler echoServer (sampleRuntime (.returns "hi" .nil)) quietLogger
        (sampleStream "/Echo/Say" overflowHeaders (.ok "hi") (.ok ()))).server = echoServer ∧
    (handler echoServer (sampleRuntime (.returns "hi" .nil)) quietLogger
        (sampleStream "/Echo/Say" overflowHeaders (.ok "hi") (.ok ()))).trace =
      [.RecvMsg (.typed Req), .Validate Req "hi", .Call sayInfo overflowContext (some "hi"),
        .SendMsg "hi"] ∧
    (handler echoServer (sampleRuntime (.returns "hi" .nil)) quietLogger
        (sampleStream "/Echo/Say" overflowHeaders (.ok "hi") (.ok ()))).out = .ret none ∧
    (handler echoServer ((sampleRuntime (.returns "hi" .nil)).withFs fullDiskEnv) quietLogger
        (sampleStream "/Echo/Say" overflowHeaders (.ok "hi") (.ok ()))).trace =
      [.RecvMsg (.typed Req), .Validate Req "hi", .Call sayInfo overflowContext (some "hi"),
        .SendMsg "hi"] ∧
    (callContext (sampleStream "/Echo/Say" millisecondHeaders (.ok "hi") (.ok ()))).2.2.timeout =
      some 1000000 := by
  decide

end GoVkit.grpcserver
